import Mathlib

/-!
# Verification of the agent control loop of `overshoot_personal_agent`

Shallow embedding of the TypeScript sources of the browser-automation agent:

* `backend/src/services/executor.ts` — `isRiskyIntent`, `isAllowedDomain`,
  `executeAction` (branch structure);
* `backend/src/agent/safety.ts` — `checkActionSafety` with `RISKY_KEYWORDS`
  from `backend/src/types/index.ts` (screen-copilot variant);
* `backend/src/services/domSnapshot.ts` — `captureDomSnapshot`;
* `backend/src/services/changeDetector.ts` — `waitForChange`;
* `backend/src/services/planner.ts` — `planNextAction` and `mockPlanner`;
* `backend/src/cli.ts` — `runAgent`, the main agent loop.

JavaScript strings are modelled through `List Char`; JS string truthiness
(empty string is falsy) is modelled explicitly.  Asynchronous collaborator
outcomes (browser, oracle, user answers, change detection) are passed in as
explicit environment data, one record per step.
-/

namespace Overshoot

/-! ## String helpers (models of the JS string operations used) -/

/-- Model of `s.startsWith(pat)` on character lists: first argument is the
pattern, second the text. -/
def charsStartWith : List Char → List Char → Bool
  | [], _ => true
  | _ :: _, [] => false
  | a :: as, b :: bs => a == b && charsStartWith as bs

/-- Model of JS `String.prototype.includes`: does `pat` occur as a contiguous
substring of the text? -/
def charsContain (pat : List Char) : List Char → Bool
  | [] => charsStartWith pat []
  | s :: rest => charsStartWith pat (s :: rest) || charsContain pat rest

/-- Model of `s.includes(pat)` on Lean strings. -/
def strIncludes (s pat : String) : Bool :=
  charsContain pat.data s.data

/-- Model of `s.toLowerCase()` (ASCII case folding, which is all the source
vocabulary needs). -/
def lowerChars (l : List Char) : List Char :=
  l.map Char.toLower

/-- Model of `s.endsWith(pat)`. -/
def charsEndWith (pat l : List Char) : Bool :=
  charsStartWith pat.reverse l.reverse

/-- JS truthiness of an optional string: `undefined` and `""` are falsy. -/
def optTruthy : Option String → Bool
  | none => false
  | some s => s ≠ ""

/-- `o?.f || ""`, the idiom used to assemble the scanned text. -/
def optStr : Option String → String
  | none => ""
  | some s => s

/-! ## Data model (`backend/src/types/index.ts`, browser-agent variant) -/

/-- Risk tier of an action (`risk: 'low' | 'medium' | 'high'`). -/
inductive Risk
  | low
  | medium
  | high
  deriving DecidableEq, Repr

/-- Action types of the browser-agent `ActionSchema`. -/
inductive ActionType
  | click
  | type_text
  | press_key
  | scroll
  | wait
  | navigate
  | ask_user
  | stop
  deriving DecidableEq, Repr

/-- One planned action (browser-agent `Action`; zod defaults for `timeoutMs`,
`risk` and `done` are applied, so those fields are present). -/
structure Action where
  type : ActionType
  targetId : Option String
  text : Option String
  key : Option String
  url : Option String
  timeoutMs : Nat
  risk : Risk
  expect : Option String
  done : Bool
  deriving DecidableEq, Repr

/-- Locator payload variants of `Target.locatorValue`. -/
structure RoleLoc where
  role : String
  name : String
  deriving DecidableEq, Repr

structure LabelLoc where
  name : String
  deriving DecidableEq, Repr

structure CssLoc where
  selector : String
  deriving DecidableEq, Repr

/-- `Target.locatorValue`: a record with three optional sub-objects. -/
structure LocatorValue where
  role : Option RoleLoc
  label : Option LabelLoc
  css : Option CssLoc
  deriving DecidableEq, Repr

/-- One interactive element exposed to planner and executor.  `role` and
`locatorType` are strings at runtime (the page-side extraction produces
strings), so they are strings here. -/
structure Target where
  id : String
  role : String
  label : String
  locatorType : String
  locatorValue : LocatorValue
  deriving DecidableEq, Repr

/-- Snapshot of the observable page state. -/
structure DomSnapshot where
  url : String
  title : String
  alerts : List String
  pageHash : String
  targets : List Target
  deriving DecidableEq, Repr

/-- Perception snapshot (the `raw` payload is irrelevant to the control loop
and omitted). -/
structure VisionSnapshot where
  timestamp : Nat
  summaryText : String
  detectedTextSnippets : List String
  deriving DecidableEq, Repr

/-- Outcome of one step as recorded in the history. -/
inductive StepResult
  | success
  | failed
  | pending
  deriving DecidableEq, Repr

/-- One completed step's record. -/
structure HistoryEntry where
  step : Nat
  action : Action
  result : StepResult
  error : Option String
  deriving DecidableEq, Repr

/-- The loop's mutable control state. -/
structure AgentState where
  goal : String
  currentStep : Nat
  maxSteps : Nat
  history : List HistoryEntry
  stuckCounter : Nat
  lastDomHash : String
  running : Bool
  deriving DecidableEq, Repr

/-! ## Safety gate, browser-agent side (`services/executor.ts`) -/

/-- The keyword list hard-coded in `isRiskyIntent`. -/
def riskyKeywords : List String :=
  ["submit", "send", "publish", "delete", "pay", "purchase",
   "order", "transfer", "confirm", "permissions", "remove"]

/-- `isRiskyIntent` from `services/executor.ts`: scans the lower-cased
concatenation of `action.text` and `action.expect` for the keywords, and also
flags any action declared high-risk. -/
def isRiskyIntent (a : Action) : Bool :=
  let textToCheck :=
    lowerChars (optStr a.text).data ++ [' '] ++ lowerChars (optStr a.expect).data
  riskyKeywords.any (fun kw => charsContain kw.data textToCheck) || a.risk == Risk.high

/-! ## Safety gate, screen-copilot side (`agent/safety.ts`) -/

/-- Action types of the screen-copilot `ActionSchema`. -/
inductive CActionType
  | propose
  | move_mouse
  | click
  | type_text
  | press_key
  | wait
  | stop
  | ask_user
  deriving DecidableEq, Repr

/-- Screen-copilot `Action`: `rationale` and `expect` are required strings. -/
structure CopilotAction where
  type : CActionType
  x : Option Int
  y : Option Int
  text : Option String
  key : Option String
  timeoutMs : Nat
  risk : Risk
  rationale : String
  expect : String
  done : Bool
  deriving DecidableEq, Repr

/-- `RISKY_KEYWORDS` from the screen-copilot `types/index.ts`. -/
def RISKY_KEYWORDS : List String :=
  ["submit", "send", "publish", "delete", "pay", "purchase",
   "order", "transfer", "confirm", "remove", "permission",
   "upload", "download", "install", "uninstall", "grant"]

/-- Operating mode of the copilot. -/
inductive Mode
  | proposal
  | execute
  deriving DecidableEq, Repr

/-- Result of the copilot safety check. -/
structure SafetyCheck where
  requiresApproval : Bool
  reason : Option String
  transformedAction : Option CopilotAction
  deriving DecidableEq, Repr

/-- The `['move_mouse', 'click', 'type_text', 'press_key']` membership test. -/
def isInputActionType (t : CActionType) : Bool :=
  t == CActionType.move_mouse || t == CActionType.click ||
  t == CActionType.type_text || t == CActionType.press_key

/-- The lower-cased text scanned by `checkActionSafety`:
`[text, rationale, expect].join(' ')`. -/
def copilotScanText (a : CopilotAction) : List Char :=
  lowerChars (optStr a.text).data ++ [' '] ++
  lowerChars a.rationale.data ++ [' '] ++
  lowerChars a.expect.data

/-- `checkActionSafety` from `agent/safety.ts`. -/
def checkActionSafety (a : CopilotAction) (mode : Mode) : SafetyCheck :=
  if mode = Mode.proposal ∧ isInputActionType a.type then
    { requiresApproval := false
      reason := none
      transformedAction :=
        some { a with type := CActionType.propose
                      rationale := "[PROPOSAL] " ++ a.rationale } }
  else if a.risk = Risk.high then
    { requiresApproval := true
      reason := some ("High risk action: " ++ a.rationale)
      transformedAction := none }
  else
    match RISKY_KEYWORDS.find? (fun kw => charsContain kw.data (copilotScanText a)) with
    | some kw =>
        { requiresApproval := true
          reason := some ("Action involves \"" ++ kw ++ "\" - requires approval")
          transformedAction := none }
    | none =>
        if mode = Mode.execute ∧ isInputActionType a.type then
          { requiresApproval := true
            reason := some "Execute mode: input action requires approval"
            transformedAction := none }
        else
          { requiresApproval := false, reason := none, transformedAction := none }

/-! ## Domain allowlist (`services/executor.ts`) -/

/-- Split a character list at the first occurrence of `pat`, returning the
parts before and after it. -/
def charsSplitFirst (pat : List Char) : List Char → Option (List Char × List Char)
  | [] => if charsStartWith pat [] then some ([], []) else none
  | c :: rest =>
      if charsStartWith pat (c :: rest) then some ([], (c :: rest).drop pat.length)
      else
        match charsSplitFirst pat rest with
        | some (pre, post) => some (c :: pre, post)
        | none => none

/-- Scheme characters admitted by the URL-constructor model. -/
def isSchemeChar (c : Char) : Bool :=
  c.isAlpha || c.isDigit || c == '+' || c == '-' || c == '.'

/-- Model of `new URL(url).hostname`: `none` models the constructor throwing.
The WHATWG constructor is modelled down to what `isAllowedDomain` observes: a
non-empty scheme, an authority delimited by `://`, user-info and port
stripping, and a lower-cased non-empty host. -/
def parseUrlHostname (s : String) : Option String :=
  match charsSplitFirst "://".data s.data with
  | none => none
  | some (scheme, rest) =>
      if scheme.isEmpty || !(scheme.all isSchemeChar) then none
      else
        let authority := rest.takeWhile (fun c => c ≠ '/' && c ≠ '?' && c ≠ '#')
        let hostPort :=
          match charsSplitFirst ['@'] authority with
          | some (_, afterAt) => afterAt
          | none => authority
        let host := hostPort.takeWhile (fun c => c ≠ ':')
        if host.isEmpty then none else some (String.mk (lowerChars host))

/-- `isAllowedDomain` from `services/executor.ts`: parse the URL (a parse
failure is caught and reported as `false`), lower-case the hostname, and
accept it when it equals a lower-cased allowlist entry or ends with `'.'`
followed by one. -/
def isAllowedDomain (url : String) (allowlist : List String) : Bool :=
  match parseUrlHostname url with
  | none => false
  | some host =>
      let hostname := lowerChars host.data
      allowlist.any fun allowed =>
        let pattern := lowerChars allowed.data
        hostname == pattern || charsEndWith ('.' :: pattern) hostname

/-- The matching rule exactly as claim C7 words it (for the refinement
comparison): the lower-cased hostname must equal an allowlist entry as
written, or end with `'.'` followed by that entry as written. -/
def claimAllowedDomain (url : String) (allowlist : List String) : Bool :=
  match parseUrlHostname url with
  | none => false
  | some host =>
      let hostname := lowerChars host.data
      allowlist.any fun allowed =>
        hostname == allowed.data || charsEndWith ('.' :: allowed.data) hostname

/-! ## State fingerprinter (`services/domSnapshot.ts`)

The in-page extraction runs over `document.querySelectorAll(...)` in document
order.  A DOM element is modelled by the attributes the extraction reads; a
missing attribute is the empty string, matching JS truthiness on
`getAttribute` results. -/

/-- The attributes of one element matched by the interactive-element
selectors, in document order.  `visible` models `offsetParent` being
non-null. -/
structure RawElement where
  tagName : String
  ariaRole : String
  ariaLabel : String
  name : String
  elemId : String
  typeAttr : String
  placeholder : String
  innerText : String
  classList : List String
  visible : Bool
  deriving DecidableEq, Repr

/-- JS `a || b` on strings (empty string is falsy). -/
def jsOr (a b : String) : String :=
  if a ≠ "" then a else b

/-- Model of `String.prototype.trim`. -/
def trimChars (l : List Char) : List Char :=
  ((l.dropWhile Char.isWhitespace).reverse.dropWhile Char.isWhitespace).reverse

/-- `innerText?.trim().slice(0, 50) || ''`. -/
def elementText (el : RawElement) : String :=
  String.mk ((trimChars el.innerText.data).take 50)

/-- The character class kept by `replace(/[^a-zA-Z0-9]/g, '_')`. -/
def isAlnumAscii (c : Char) : Bool :=
  ('a' ≤ c && c ≤ 'z') || ('A' ≤ c && c ≤ 'Z') || ('0' ≤ c && c ≤ '9')

/-- `label.replace(/[^a-zA-Z0-9]/g, '_')`. -/
def sanitizeLabel (s : String) : String :=
  String.mk (s.data.map (fun c => if isAlnumAscii c then c else '_'))

/-- Model of `s.toLowerCase()` on `String`. -/
def lowerStr (s : String) : String :=
  String.mk (lowerChars s.data)

/-- Role derivation of the extraction (`let role = 'other'; if ...`). -/
def elementRole (el : RawElement) : String :=
  if el.ariaRole = "button" ∨ el.tagName = "BUTTON" then "button"
  else if el.ariaRole = "link" ∨ el.tagName = "A" then "link"
  else if el.ariaRole = "checkbox" ∨ el.typeAttr = "checkbox" then "checkbox"
  else if el.tagName = "SELECT" then "select"
  else if el.tagName = "INPUT" ∨ el.tagName = "TEXTAREA" then "input"
  else "other"

/-- Label derivation: first truthy of aria-label, text, placeholder, name,
id, lower-cased tag; `[type]` suffix; truncation to 60. -/
def elementLabel (el : RawElement) : String :=
  let base :=
    jsOr el.ariaLabel (jsOr (elementText el) (jsOr el.placeholder
      (jsOr el.name (jsOr el.elemId (lowerStr el.tagName)))))
  let withType := if el.typeAttr ≠ "" then base ++ " [" ++ el.typeAttr ++ "]" else base
  String.mk (withType.data.take 60)

/-- `` `${role}:${label.replace(...).slice(0, 30)}:${index}` ``. -/
def stableId (role label : String) (index : Nat) : String :=
  role ++ ":" ++ String.mk ((sanitizeLabel label).data.take 30) ++ ":" ++ toString index

/-- Locator derivation of the extraction. -/
def elementLocator (el : RawElement) (role : String) : String × LocatorValue :=
  if el.ariaLabel ≠ "" ∨ (role ≠ "other" ∧ elementText el ≠ "") then
    ("role", { role := some ⟨role, jsOr el.ariaLabel (elementText el)⟩, label := none, css := none })
  else if el.elemId ≠ "" then
    ("css", { role := none, label := none, css := some ⟨"#" ++ el.elemId⟩ })
  else if el.name ≠ "" then
    ("css", { role := none, label := none, css := some ⟨"[name=\"" ++ el.name ++ "\"]"⟩ })
  else
    let classes := String.intercalate "." (el.classList.take 2)
    let selector :=
      if classes ≠ "" then lowerStr el.tagName ++ "." ++ classes else lowerStr el.tagName
    ("css", { role := none, label := none, css := some ⟨selector⟩ })

/-- The target pushed for a retained element at ordinal `index`. -/
def processEl (el : RawElement) (index : Nat) : Target :=
  let role := elementRole el
  let label := elementLabel el
  let loc := elementLocator el role
  { id := stableId role label index
    role := role
    label := label
    locatorType := loc.1
    locatorValue := loc.2 }

/-- Accumulator of the `forEach` extraction loop. -/
structure ExtractState where
  out : List Target
  seen : List String
  index : Nat
  deriving DecidableEq, Repr

/-- One `forEach` body iteration without the cap guard: skip invisible
elements, skip identifier collisions (first occurrence wins), otherwise push
and advance the ordinal. -/
def extractStepCore (st : ExtractState) (el : RawElement) : ExtractState :=
  if !el.visible && el.tagName ≠ "BODY" then st
  else
    let t := processEl el st.index
    if st.seen.contains t.id then st
    else { out := st.out ++ [t], seen := t.id :: st.seen, index := st.index + 1 }

/-- One `forEach` body iteration as written, with the `index >= 40` cap
guard. -/
def extractStepCap (st : ExtractState) (el : RawElement) : ExtractState :=
  if 40 ≤ st.index then st else extractStepCore st el

/-- The in-page extraction over the element list, capped. -/
def runExtract (els : List RawElement) : List Target :=
  (els.foldl extractStepCap { out := [], seen := [], index := 0 }).out

/-- The same extraction without the cap (used to state truncation
stability). -/
def runExtractNoCap (els : List RawElement) : List Target :=
  (els.foldl extractStepCore { out := [], seen := [], index := 0 }).out

/-- A live page as the fingerprinter observes it. -/
structure PageModel where
  url : String
  title : String
  elements : List RawElement
  deriving Repr

/-- Model of the 12-hex-digit md5 digest: an injective stand-in (the digest
input string itself), which realises "content equality implies hash
equality" and keeps the detector's comparisons meaningful. -/
def hashString (s : String) : String :=
  s

/-- `captureDomSnapshot` from `services/domSnapshot.ts`: extract targets,
build the page hash over URL, title and the ordered `(id, label)` pairs, and
cap the stored target list at `MAX_TARGETS = 40`. -/
def captureDomSnapshot (pg : PageModel) : DomSnapshot :=
  let targets := runExtract pg.elements
  let targetsSignature :=
    String.intercalate "|" (targets.map (fun t => t.id ++ ":" ++ t.label))
  { url := pg.url
    title := pg.title
    alerts := []
    pageHash := hashString (pg.url ++ "|" ++ pg.title ++ "|" ++ targetsSignature)
    targets := targets.take 40 }

/-! ## Change detector (`services/changeDetector.ts`) -/

/-- Result record of `waitForChange`. -/
structure ChangeResult where
  changed : Bool
  domChanged : Bool
  visionChanged : Bool
  newDom : DomSnapshot
  timeout : Bool
  deriving DecidableEq, Repr

/-- Jaccard similarity of two snippet lists as sets, with an empty union
treated as maximal similarity. -/
def jaccardSimilarity (a b : List String) : ℚ :=
  let sa := a.dedup
  let sb := b.dedup
  let inter := (sa.filter (fun x => sb.contains x)).length
  let union := ((sa ++ sb).dedup).length
  if union = 0 then 1 else (inter : ℚ) / (union : ℚ)

/-- The immediate "DOM changed" trigger: content hash, URL or active-alert
count differ from the baseline. -/
def domDiff (prev cur : DomSnapshot) : Bool :=
  cur.pageHash != prev.pageHash || cur.url != prev.url ||
  cur.alerts.length != prev.alerts.length

/-- The timeout result: a freshly captured snapshot with only the `timeout`
flag set. -/
def timeoutResult (dom : DomSnapshot) : ChangeResult :=
  { changed := false, domChanged := false, visionChanged := false,
    newDom := dom, timeout := true }

/-- The polling loop of `waitForChange`.  Poll `k` happens at elapsed time
`k * 200` ms; `domAt k` is the snapshot a capture at that time returns and
`visionAt k` the perception value a read at that time returns.  `fuel`
bounds the number of iterations; with the fuel used by `waitForChange` the
`0` case is unreachable, and it returns the timeout result so that the
function agrees with the loop for every fuel. -/
def waitForChangeGo (prevDom : DomSnapshot) (domAt : Nat → DomSnapshot)
    (visionAt : Nat → Option VisionSnapshot) (timeoutMs : Nat)
    (prevSnippets : List String) : Nat → Nat → ChangeResult
  | 0, k => timeoutResult (domAt k)
  | fuel + 1, k =>
      if k * 200 < timeoutMs then
        let currentDom := domAt k
        if domDiff prevDom currentDom then
          { changed := true, domChanged := true, visionChanged := false,
            newDom := currentDom, timeout := false }
        else if 1000 ≤ k * 200 then
          match visionAt k with
          | some v =>
              if jaccardSimilarity prevSnippets v.detectedTextSnippets < 7 / 10 then
                { changed := true, domChanged := false, visionChanged := true,
                  newDom := currentDom, timeout := false }
              else
                waitForChangeGo prevDom domAt visionAt timeoutMs prevSnippets fuel (k + 1)
          | none =>
              waitForChangeGo prevDom domAt visionAt timeoutMs prevSnippets fuel (k + 1)
        else
          waitForChangeGo prevDom domAt visionAt timeoutMs prevSnippets fuel (k + 1)
      else
        timeoutResult (domAt k)

/-- `getLatestVision()?.detectedTextSnippets || []`, read once before the
polling loop starts. -/
def initialSnippets (visionAt : Nat → Option VisionSnapshot) : List String :=
  match visionAt 0 with
  | some v => v.detectedTextSnippets
  | none => []

/-- `waitForChange`: the initial snippet baseline is the perception value at
time zero, then the loop polls every 200 ms until the deadline. -/
def waitForChange (prevDom : DomSnapshot) (domAt : Nat → DomSnapshot)
    (visionAt : Nat → Option VisionSnapshot) (timeoutMs : Nat) : ChangeResult :=
  waitForChangeGo prevDom domAt visionAt timeoutMs (initialSnippets visionAt)
    (timeoutMs / 200 + 1) 0

/-! ## Planner (`services/planner.ts`) -/

/-- The ways a planning-oracle call fails: the spawned process errors or
exits non-zero, the response contains no JSON object, or the parsed JSON
fails `ActionSchema` validation.  All are raised inside the `try` block and
caught by the same `catch`. -/
inductive PlanError
  | procError
  | nonJsonResponse
  | schemaValidationFailed
  deriving DecidableEq, Repr

/-- The synthetic stop action substituted for a planner response whose
`targetId` is not in the snapshot. -/
def syntheticStop (tid : String) : Action :=
  { type := ActionType.stop, targetId := none, text := none, key := none,
    url := none, timeoutMs := 5000, risk := Risk.low,
    expect := some ("Error: targetId \"" ++ tid ++ "\" not found in targets list"),
    done := false }

/-- The action types whose `targetId` is validated against the snapshot
(everything except `ask_user`, `stop`, `navigate` and `wait`). -/
def targetValidatedType (t : ActionType) : Bool :=
  !(t == ActionType.ask_user || t == ActionType.stop ||
    t == ActionType.navigate || t == ActionType.wait)

/-- The `filledInputs` set of `mockPlanner`: targets already typed into. -/
def filledInputIds (history : List HistoryEntry) : List String :=
  history.filterMap fun h =>
    if h.action.type == ActionType.type_text && optTruthy h.action.targetId then
      h.action.targetId
    else none

/-- The `clickedElements` set of `mockPlanner`: targets already clicked. -/
def clickedElementIds (history : List HistoryEntry) : List String :=
  history.filterMap fun h =>
    if h.action.type == ActionType.click && optTruthy h.action.targetId then
      h.action.targetId
    else none

/-- `mockPlanner`: the deterministic local heuristic — fill the first
unfilled non-checkbox input with placeholder data, then click the first
unclicked select, then the first unclicked checkbox, then stop with
`done = true`. -/
def mockPlanner (dom : DomSnapshot) (history : List HistoryEntry) : Action :=
  match (dom.targets.filter (fun t => t.role == "input")).find? (fun i =>
      !((filledInputIds history).contains i.id) && !(strIncludes i.label "checkbox")) with
  | some input =>
      let isEmail := charsContain "email".data (lowerChars input.label.data)
      let isName := charsContain "name".data (lowerChars input.label.data)
      let text :=
        if isEmail then "demo@example.com"
        else if isName then "Demo User"
        else "demo value"
      { type := ActionType.type_text, targetId := some input.id, text := some text,
        key := none, url := none, timeoutMs := 5000, risk := Risk.low,
        expect := some ("Fill " ++ input.label ++ " with dummy data"), done := false }
  | none =>
  match (dom.targets.filter (fun t => t.role == "select")).find? (fun s =>
      !((clickedElementIds history).contains s.id)) with
  | some sel =>
      { type := ActionType.click, targetId := some sel.id, text := none, key := none,
        url := none, timeoutMs := 5000, risk := Risk.low,
        expect := some ("Open " ++ sel.label ++ " dropdown"), done := false }
  | none =>
  match (dom.targets.filter (fun t => t.role == "checkbox")).find? (fun cb =>
      !((clickedElementIds history).contains cb.id)) with
  | some cb =>
      { type := ActionType.click, targetId := some cb.id, text := none, key := none,
        url := none, timeoutMs := 5000, risk := Risk.low,
        expect := some ("Toggle " ++ cb.label), done := false }
  | none =>
      { type := ActionType.stop, targetId := none, text := none, key := none,
        url := none, timeoutMs := 5000, risk := Risk.low,
        expect := some "Form filled with dummy data, stopping before submit as requested",
        done := true }

/-- `planNextAction`: on a successful oracle call, validate the returned
action's `targetId` against the snapshot (substituting a synthetic stop on a
miss); any failure raised inside the `try` block falls back to
`mockPlanner`. -/
def planNextAction (oracle : Except PlanError Action) (dom : DomSnapshot)
    (history : List HistoryEntry) : Action :=
  match oracle with
  | Except.error _ => mockPlanner dom history
  | Except.ok action =>
      if optTruthy action.targetId && targetValidatedType action.type then
        if dom.targets.any (fun t => t.id == optStr action.targetId) then action
        else syntheticStop (optStr action.targetId)
      else action

/-! ## Executor (`services/executor.ts`) -/

/-- A resolved Playwright locator. -/
inductive Locator
  | byRole (role name : String)
  | byLabel (name : String)
  | byCss (selector : String)
  | byText (label : String)
  deriving DecidableEq, Repr

/-- `getLocator`: resolve by the locator descriptor, falling back to a text
locator built from the label. -/
def getLocator (t : Target) : Locator :=
  match t.locatorType with
  | "role" =>
      match t.locatorValue.role with
      | some r => Locator.byRole r.role r.name
      | none => Locator.byText t.label
  | "label" =>
      match t.locatorValue.label with
      | some l => Locator.byLabel l.name
      | none => Locator.byText t.label
  | "css" =>
      match t.locatorValue.css with
      | some c => Locator.byCss c.selector
      | none => Locator.byText t.label
  | _ => Locator.byText t.label

/-- `findTarget` from `services/domSnapshot.ts`. -/
def findTarget (dom : DomSnapshot) (tid : String) : Option Target :=
  dom.targets.find? (fun t => t.id == tid)

/-- The single browser operation an action translates to. -/
inductive BrowserOp
  | clickOp (loc : Locator) (timeoutMs : Nat)
  | fillOp (loc : Locator) (text : String) (timeoutMs : Nat)
  | pressOp (key : String)
  | scrollOp
  | waitOp (ms : Nat)
  | gotoOp (url : String) (timeoutMs : Nat)
  deriving DecidableEq, Repr

/-- Which branch of `executeAction` an action reaches: an early validation
failure (returned without touching the browser), a browser operation, or the
no-op success for `ask_user`/`stop`. -/
inductive ExecBranch
  | failNoTarget (msg : String)
  | browserOp (op : BrowserOp)
  | handledByOrchestrator
  deriving DecidableEq, Repr

/-- The branch structure of `executeAction`, including the
`action.timeoutMs || 5000` default. -/
def executeBranch (a : Action) (dom : DomSnapshot) : ExecBranch :=
  let timeout := if a.timeoutMs == 0 then 5000 else a.timeoutMs
  match a.type with
  | ActionType.click =>
      if !(optTruthy a.targetId) then ExecBranch.failNoTarget "No targetId for click"
      else
        match findTarget dom (optStr a.targetId) with
        | none => ExecBranch.failNoTarget ("Target not found: " ++ optStr a.targetId)
        | some t => ExecBranch.browserOp (BrowserOp.clickOp (getLocator t) timeout)
  | ActionType.type_text =>
      if !(optTruthy a.targetId) then ExecBranch.failNoTarget "No targetId for type_text"
      else if !(optTruthy a.text) then ExecBranch.failNoTarget "No text for type_text"
      else
        match findTarget dom (optStr a.targetId) with
        | none => ExecBranch.failNoTarget ("Target not found: " ++ optStr a.targetId)
        | some t =>
            ExecBranch.browserOp (BrowserOp.fillOp (getLocator t) (optStr a.text) timeout)
  | ActionType.press_key =>
      if !(optTruthy a.key) then ExecBranch.failNoTarget "No key for press_key"
      else ExecBranch.browserOp (BrowserOp.pressOp (optStr a.key))
  | ActionType.scroll => ExecBranch.browserOp BrowserOp.scrollOp
  | ActionType.wait => ExecBranch.browserOp (BrowserOp.waitOp timeout)
  | ActionType.navigate =>
      if !(optTruthy a.url) then ExecBranch.failNoTarget "No url for navigate"
      else ExecBranch.browserOp (BrowserOp.gotoOp (optStr a.url) timeout)
  | ActionType.ask_user => ExecBranch.handledByOrchestrator
  | ActionType.stop => ExecBranch.handledByOrchestrator

/-! ## Control loop (`cli.ts`, `runAgent`)

The loop is strictly sequential; every collaborator outcome a step consumes
(the captured snapshot, the perception value, the CAPTCHA heuristic, the
oracle response, the user's answers at each prompt, the browser outcome, the
change-detector classification) is supplied by a per-step environment
record.  An exception thrown during a step — the snapshot capture and every
other `await` of a step sit inside the one outer `try` — is modelled by the
`stepThrows` flag and propagates to the `catch` block, ending the run. -/

/-- The change-detector classification the step observes, with the new page
hash on a DOM change. -/
inductive ChangeKind
  | domChangedK (newHash : String)
  | visionChangedK
  | timeoutK
  deriving DecidableEq, Repr

/-- The collaborator outcomes one loop iteration consumes. -/
structure StepEnv where
  stepThrows : Bool
  dom : DomSnapshot
  vision : Option VisionSnapshot
  hasCaptcha : Bool
  stuckContinue : Bool
  oracle : Except PlanError Action
  askUserApproved : Bool
  navApproved : Bool
  riskyApproved : Bool
  execSucceeds : Bool
  execError : Option String
  change : ChangeKind
  deriving Repr

/-- Observable records the run emits (terminal prompts and the structured
log records of `RunLogger`). -/
inductive RunEvent
  | actionLogged (step : Nat) (a : Action) (result : StepResult)
  | stuckPrompt (step : Nat)
  | askPrompt (step : Nat) (question : String)
  | navPrompt (step : Nat) (url : String)
  | riskyPrompt (step : Nat)
  | executed (step : Nat) (op : BrowserOp)
  | finalSummary (goal : String) (history : List HistoryEntry)
      (finalUrl : String) (success : Bool)
  deriving DecidableEq, Repr

/-- How one loop iteration ends: an exception propagating to the outer
`catch`, a `break` out of the loop, or a `continue`/fall-through to the next
iteration. -/
inductive StepOutcome
  | crash (events : List RunEvent)
  | exit (st : AgentState) (events : List RunEvent)
  | next (st : AgentState) (events : List RunEvent)
  deriving DecidableEq, Repr

/-- Prepend events emitted earlier in the same iteration. -/
def StepOutcome.withEvents (pre : List RunEvent) : StepOutcome → StepOutcome
  | StepOutcome.crash evs => StepOutcome.crash (pre ++ evs)
  | StepOutcome.exit st evs => StepOutcome.exit st (pre ++ evs)
  | StepOutcome.next st evs => StepOutcome.next st (pre ++ evs)

/-- The execution tail of a step (from the `executeAction` call on): record
the result in the history, and on success classify the change and update the
stuck counter — reset on DOM change, untouched on vision-only change,
incremented on timeout. -/
def runStepExec (st : AgentState) (env : StepEnv) (step : Nat) (action : Action) :
    StepOutcome :=
  let afterSuccess (st : AgentState) (evs : List RunEvent) : StepOutcome :=
    let entry : HistoryEntry :=
      { step := step, action := action, result := StepResult.success, error := none }
    let stH := { st with history := st.history ++ [entry] }
    let evs := evs ++ [RunEvent.actionLogged step action StepResult.success]
    match env.change with
    | ChangeKind.domChangedK newHash =>
        StepOutcome.next { stH with stuckCounter := 0, lastDomHash := newHash } evs
    | ChangeKind.visionChangedK => StepOutcome.next stH evs
    | ChangeKind.timeoutK =>
        StepOutcome.next { stH with stuckCounter := stH.stuckCounter + 1 } evs
  match executeBranch action env.dom with
  | ExecBranch.failNoTarget msg =>
      let entry : HistoryEntry :=
        { step := step, action := action, result := StepResult.failed, error := some msg }
      StepOutcome.next { st with history := st.history ++ [entry] }
        [RunEvent.actionLogged step action StepResult.failed]
  | ExecBranch.handledByOrchestrator => afterSuccess st []
  | ExecBranch.browserOp op =>
      if env.execSucceeds then afterSuccess st [RunEvent.executed step op]
      else
        let entry : HistoryEntry :=
          { step := step, action := action, result := StepResult.failed,
            error := env.execError }
        StepOutcome.next { st with history := st.history ++ [entry] }
          [RunEvent.executed step op,
           RunEvent.actionLogged step action StepResult.failed]

/-- The risky-intent gate: a flagged action prompts; a decline is recorded
as a failed step and the loop continues without executing. -/
def runStepRisky (st : AgentState) (env : StepEnv)
    (step : Nat) (action : Action) : StepOutcome :=
  if isRiskyIntent action then
    if env.riskyApproved then
      (runStepExec st env step action).withEvents [RunEvent.riskyPrompt step]
    else
      let entry : HistoryEntry :=
        { step := step, action := action, result := StepResult.failed,
          error := some "User blocked risky action" }
      StepOutcome.next { st with history := st.history ++ [entry] }
        [RunEvent.riskyPrompt step]
  else runStepExec st env step action

/-- The step body after the stuck-counter check: plan, branch on the action
kind, gate navigation and risky intent, then execute. -/
def runStepPlan (allowlist : List String) (st : AgentState) (env : StepEnv)
    (step : Nat) : StepOutcome :=
  let action := planNextAction env.oracle env.dom st.history
  if action.type = ActionType.stop then
    StepOutcome.exit st [RunEvent.actionLogged step action StepResult.success]
  else if action.type = ActionType.ask_user then
    let approved := env.askUserApproved
    let entry : HistoryEntry :=
      { step := step, action := action,
        result := if approved then StepResult.success else StepResult.failed,
        error := none }
    let st' := { st with history := st.history ++ [entry] }
    let evs := [RunEvent.askPrompt step (jsOr (optStr action.text) "Should I proceed?"),
                RunEvent.actionLogged step action
                  (if approved then StepResult.success else StepResult.failed)]
    if approved then StepOutcome.next st' evs else StepOutcome.exit st' evs
  else if action.type = ActionType.navigate ∧ optTruthy action.url ∧
      ¬ isAllowedDomain (optStr action.url) allowlist then
    if env.navApproved then
      (runStepRisky st env step action).withEvents
        [RunEvent.navPrompt step (optStr action.url)]
    else
      let entry : HistoryEntry :=
        { step := step, action := action, result := StepResult.failed,
          error := some "User blocked navigation" }
      StepOutcome.next { st with history := st.history ++ [entry] }
        [RunEvent.navPrompt step (optStr action.url)]
  else runStepRisky st env step action

/-- One iteration of the `while` loop: advance the step counter, capture
(where a throw crashes the run), suspend on a CAPTCHA (the iteration
consumes a step number and re-observes without touching the stuck counter),
prompt on a stuck counter at the threshold, then plan / gate / execute. -/
def runStep (allowlist : List String) (st : AgentState) (env : StepEnv) :
    StepOutcome :=
  let step := st.currentStep + 1
  let st1 := { st with currentStep := step }
  if env.stepThrows then StepOutcome.crash []
  else if env.hasCaptcha then StepOutcome.next st1 []
  else if 3 ≤ st1.stuckCounter then
    if env.stuckContinue then
      (runStepPlan allowlist { st1 with stuckCounter := 0 } env step).withEvents
        [RunEvent.stuckPrompt step]
    else StepOutcome.exit st1 [RunEvent.stuckPrompt step]
  else runStepPlan allowlist st1 env step

/-- Result of running out the loop. -/
structure LoopResult where
  state : AgentState
  events : List RunEvent
  crashed : Bool
  deriving DecidableEq, Repr

/-- The `while (state.running && state.currentStep < state.maxSteps)` loop.
`fuel` bounds the iterations; the caller passes `maxSteps`, which suffices
because every iteration increments `currentStep`. -/
def runLoop (allowlist : List String) (envs : Nat → StepEnv) :
    Nat → AgentState → LoopResult
  | 0, st => { state := st, events := [], crashed := false }
  | fuel + 1, st =>
      if st.running ∧ st.currentStep < st.maxSteps then
        match runStep allowlist st (envs st.currentStep) with
        | StepOutcome.crash evs => { state := st, events := evs, crashed := true }
        | StepOutcome.exit st' evs => { state := st', events := evs, crashed := false }
        | StepOutcome.next st' evs =>
            let r := runLoop allowlist envs fuel st'
            { state := r.state, events := evs ++ r.events, crashed := r.crashed }
      else { state := st, events := [], crashed := false }

/-- The initial agent state built in `runAgent`. -/
def initialState (goal : String) (maxSteps : Nat) : AgentState :=
  { goal := goal, currentStep := 0, maxSteps := maxSteps, history := [],
    stuckCounter := 0, lastDomHash := "", running := true }

/-- `runAgent` from the loop entry on: run the loop, then — only when no
exception escaped to the `catch` block — write the final summary record
`(goal, history, page.url(), history.some(h => h.action.done))`.
`finalUrl` is the live page URL read at termination time. -/
def runAgent (allowlist : List String) (envs : Nat → StepEnv) (goal : String)
    (maxSteps : Nat) (finalUrl : String) : LoopResult :=
  let r := runLoop allowlist envs maxSteps (initialState goal maxSteps)
  if r.crashed then r
  else
    { r with events := r.events ++
        [RunEvent.finalSummary goal r.state.history finalUrl
          (r.state.history.any (fun h => h.action.done))] }

/-- Recogniser for the final summary record among emitted events. -/
def isFinalSummaryEvent : RunEvent → Bool
  | RunEvent.finalSummary _ _ _ _ => true
  | _ => false

/-- Events emitted by a step, regardless of how it ended. -/
def StepOutcome.events : StepOutcome → List RunEvent
  | StepOutcome.crash evs => evs
  | StepOutcome.exit _ evs => evs
  | StepOutcome.next _ evs => evs

/-- The stuck-counter update rule applied after a successfully executed
step, as claim C6 words it. -/
def stuckUpdate (counter : Nat) : ChangeKind → Nat
  | ChangeKind.domChangedK _ => 0
  | ChangeKind.visionChangedK => counter
  | ChangeKind.timeoutK => counter + 1

/-! ## Concrete fixtures used by counterexamples and witnesses -/

/-- A snapshot with no targets. -/
def emptyDom : DomSnapshot :=
  { url := "http://localhost/", title := "t", alerts := [], pageHash := "h0",
    targets := [] }

/-- A low-risk click whose payload text contains the vocabulary word
`upload`. -/
def uploadAction : Action :=
  { type := ActionType.click, targetId := some "button:Attach:0",
    text := some "upload the report", key := none, url := none,
    timeoutMs := 5000, risk := Risk.low, expect := some "file picker opens",
    done := false }

/-- A low-risk copilot click whose payload text contains `delete`. -/
def deleteCopilotAction : CopilotAction :=
  { type := CActionType.click, x := some 10, y := some 20,
    text := some "delete the draft", key := none, timeoutMs := 5000,
    risk := Risk.low, rationale := "clean up", expect := "draft removed",
    done := false }

/-- A low-risk browser action whose payload text contains `submit`. -/
def submitAction : Action :=
  { type := ActionType.click, targetId := some "button:Send:0",
    text := some "submit form", key := none, url := none, timeoutMs := 5000,
    risk := Risk.low, expect := none, done := false }

/-- A navigate response carrying a `targetId` that no snapshot lists. -/
def ghostNavigate : Action :=
  { type := ActionType.navigate, targetId := some "ghost", text := none,
    key := none, url := some "http://localhost/x", timeoutMs := 5000,
    risk := Risk.low, expect := none, done := false }

/-- A click response carrying a `targetId` that no snapshot lists. -/
def ghostClick : Action :=
  { type := ActionType.click, targetId := some "ghost", text := none,
    key := none, url := none, timeoutMs := 5000, risk := Risk.low,
    expect := none, done := false }

/-! ## C1 — keyword backstop -/

/-- C1 counterexample: `upload` belongs to the claimed risk vocabulary
(`RISKY_KEYWORDS`) and occurs in the payload text of `uploadAction`, whose
declared risk is low, yet `isRiskyIntent` — the safety check the browser
agent runs — does not require approval: its hard-coded list has no
`upload`/`download`/`install`/`uninstall`/`grant`/`permission` and it never
scans a rationale. -/
theorem isRiskyIntent_misses_upload :
    "upload" ∈ RISKY_KEYWORDS ∧
    strIncludes (optStr uploadAction.text) "upload" = true ∧
    uploadAction.risk = Risk.low ∧
    isRiskyIntent uploadAction = false := by
  refine ⟨by decide, by decide, rfl, by decide⟩

/-- C1 (amended): `checkActionSafety` requires approval whenever one of the
16 `RISKY_KEYWORDS` occurs case-insensitively in the action's text,
rationale or expected-effect fields, regardless of the declared risk tier —
except that in proposal mode an input action is instead rewritten into a
non-executed proposal.  `isRiskyIntent` only scans its own 11-keyword list
(`permissions` in place of `permission`, and without
`upload`/`download`/`install`/`uninstall`/`grant`) against the text and
expected-effect fields, plus any high-risk declaration. -/
theorem keyword_backstop_amended :
    (∀ (a : CopilotAction) (mode : Mode) (kw : String), kw ∈ RISKY_KEYWORDS →
      charsContain kw.data (copilotScanText a) = true →
      (mode = Mode.execute ∨ isInputActionType a.type = false) →
      (checkActionSafety a mode).requiresApproval = true) ∧
    (∀ (a : Action) (kw : String), kw ∈ riskyKeywords →
      charsContain kw.data
        (lowerChars (optStr a.text).data ++ [' '] ++ lowerChars (optStr a.expect).data) = true →
      isRiskyIntent a = true) := by
  constructor
  · intro a mode kw hmem hocc hmode
    have hnotprop : ¬ (mode = Mode.proposal ∧ isInputActionType a.type = true) := by
      rcases hmode with h | h
      · subst h; rintro ⟨h1, _⟩; cases h1
      · rintro ⟨_, h2⟩; rw [h] at h2; cases h2
    unfold checkActionSafety
    rw [if_neg hnotprop]
    by_cases hr : a.risk = Risk.high
    · rw [if_pos hr]
    · rw [if_neg hr]
      cases hf : RISKY_KEYWORDS.find? (fun kw => charsContain kw.data (copilotScanText a)) with
      | none =>
          exfalso
          have := List.find?_eq_none.mp hf kw hmem
          simp [hocc] at this
      | some kw' => simp
  · intro a kw hmem hocc
    have h1 : riskyKeywords.any (fun kw =>
        charsContain kw.data
          (lowerChars (optStr a.text).data ++ [' '] ++ lowerChars (optStr a.expect).data)) = true :=
      List.any_eq_true.mpr ⟨kw, hmem, hocc⟩
    show (riskyKeywords.any (fun kw =>
        charsContain kw.data
          (lowerChars (optStr a.text).data ++ [' '] ++ lowerChars (optStr a.expect).data)) ||
      a.risk == Risk.high) = true
    rw [h1, Bool.true_or]

/-- C1 witness: the amended theorem applied to concrete flagged actions. -/
theorem keyword_backstop_amended_witness :
    (checkActionSafety deleteCopilotAction Mode.execute).requiresApproval = true ∧
    isRiskyIntent submitAction = true :=
  ⟨keyword_backstop_amended.1 deleteCopilotAction Mode.execute "delete"
      (by decide) (by decide) (Or.inl rfl),
   keyword_backstop_amended.2 submitAction "submit" (by decide) (by decide)⟩

/-! ## C4 — target validation -/

/-- C4 counterexample: a planner response of type `navigate` naming the
absent target `ghost` is not replaced by a synthetic stop — the validation
in `planNextAction` exempts `ask_user`/`stop`/`navigate`/`wait` — and the
requested operation reaches the executor's browser-operation branch as a
`page.goto`. -/
theorem dangling_navigate_counterexample :
    emptyDom.targets = [] ∧
    ghostNavigate.targetId = some "ghost" ∧
    planNextAction (Except.ok ghostNavigate) emptyDom [] = ghostNavigate ∧
    ghostNavigate.type ≠ ActionType.stop ∧
    executeBranch ghostNavigate emptyDom =
      ExecBranch.browserOp (BrowserOp.gotoOp "http://localhost/x" 5000) := by
  refine ⟨rfl, rfl, by decide, by decide, by decide⟩

/-- C4 (amended): for the element-scoped action types the validation covers
(`click`, `type_text`, `press_key`, `scroll` — everything except `ask_user`,
`stop`, `navigate` and `wait`), a planner response naming a non-empty
`targetId` absent from the snapshot is replaced before execution by the
synthetic stop carrying a diagnostic, and that stop never reaches the
executor's browser-operation branch. -/
theorem target_validation_amended (a : Action) (dom : DomSnapshot)
    (history : List HistoryEntry) (tid : String)
    (h1 : a.targetId = some tid) (h2 : tid ≠ "")
    (h3 : targetValidatedType a.type = true)
    (h4 : dom.targets.any (fun t => t.id == tid) = false) :
    planNextAction (Except.ok a) dom history = syntheticStop tid ∧
    (syntheticStop tid).type = ActionType.stop ∧
    executeBranch (syntheticStop tid) dom = ExecBranch.handledByOrchestrator := by
  refine ⟨?_, rfl, rfl⟩
  simp [planNextAction, h1, optTruthy, optStr, h2, h3, h4]

/-- C4 witness: the amended theorem applied to a click on a target absent
from the empty snapshot. -/
theorem target_validation_witness :
    planNextAction (Except.ok ghostClick) emptyDom [] = syntheticStop "ghost" ∧
    executeBranch (syntheticStop "ghost") emptyDom = ExecBranch.handledByOrchestrator :=
  ⟨(target_validation_amended ghostClick emptyDom [] "ghost" rfl (by decide)
      (by decide) (by decide)).1,
   (target_validation_amended ghostClick emptyDom [] "ghost" rfl (by decide)
      (by decide) (by decide)).2.2⟩

/-! ## C10 — malformed navigation destinations -/

/-- C10: whenever the URL-constructor model fails (the source's
`new URL(url)` throws), `isAllowedDomain` returns `false` for every
allowlist — the `catch` branch — so a malformed destination is always
treated as outside the allowlist. -/
theorem unparseable_url_not_allowed (url : String) (allowlist : List String)
    (h : parseUrlHostname url = none) :
    isAllowedDomain url allowlist = false := by
  unfold isAllowedDomain
  rw [h]

/-- C10 witness: a string with no scheme separator fails to parse and is
rejected for a non-trivial allowlist. -/
theorem unparseable_url_not_allowed_witness :
    isAllowedDomain "not a url" ["example.com", "localhost"] = false :=
  unparseable_url_not_allowed "not a url" ["example.com", "localhost"] (by decide)

/-! ## C8 — oracle-failure fallback -/

/-- C8: every planning-oracle failure (process error, non-JSON response,
schema-validation failure) makes `planNextAction` return the deterministic
`mockPlanner` action instead of propagating the error, and that action is
either a `type_text` filling an input target of the snapshot, a `click` on a
select or checkbox target of the snapshot, or a `stop` with `done = true`. -/
theorem planner_fallback_on_failure (e : PlanError) (dom : DomSnapshot)
    (history : List HistoryEntry) :
    planNextAction (Except.error e) dom history = mockPlanner dom history ∧
    (((mockPlanner dom history).type = ActionType.type_text ∧
        ∃ t ∈ dom.targets, t.role = "input" ∧
          (mockPlanner dom history).targetId = some t.id) ∨
      ((mockPlanner dom history).type = ActionType.click ∧
        ∃ t ∈ dom.targets, (t.role = "select" ∨ t.role = "checkbox") ∧
          (mockPlanner dom history).targetId = some t.id) ∨
      ((mockPlanner dom history).type = ActionType.stop ∧
        (mockPlanner dom history).done = true)) := by
  refine ⟨rfl, ?_⟩
  unfold mockPlanner
  cases hi : (dom.targets.filter (fun t => t.role == "input")).find? (fun i =>
      !((filledInputIds history).contains i.id) && !(strIncludes i.label "checkbox")) with
  | some input =>
      dsimp only
      left
      have hmem := List.mem_of_find?_eq_some hi
      have hrole : input.role = "input" := by
        have := List.mem_filter.mp hmem
        simpa using this.2
      exact ⟨rfl, input, (List.mem_filter.mp hmem).1, hrole, rfl⟩
  | none =>
      cases hs : (dom.targets.filter (fun t => t.role == "select")).find? (fun s =>
          !((clickedElementIds history).contains s.id)) with
      | some sel =>
          dsimp only
          right; left
          have hmem := List.mem_of_find?_eq_some hs
          have hrole : sel.role = "select" := by
            have := List.mem_filter.mp hmem
            simpa using this.2
          exact ⟨rfl, sel, (List.mem_filter.mp hmem).1, Or.inl hrole, rfl⟩
      | none =>
          cases hc : (dom.targets.filter (fun t => t.role == "checkbox")).find? (fun cb =>
              !((clickedElementIds history).contains cb.id)) with
          | some cb =>
              dsimp only
              right; left
              have hmem := List.mem_of_find?_eq_some hc
              have hrole : cb.role = "checkbox" := by
                have := List.mem_filter.mp hmem
                simpa using this.2
              exact ⟨rfl, cb, (List.mem_filter.mp hmem).1, Or.inr hrole, rfl⟩
          | none =>
              dsimp only
              right; right
              exact ⟨rfl, rfl⟩

/-! ## C7 — allowlist matching -/

/-! ## C5 — change classification -/

/-- The record returned on a DOM change. -/
def domResult (dom : DomSnapshot) : ChangeResult :=
  { changed := true, domChanged := true, visionChanged := false,
    newDom := dom, timeout := false }

/-- The record returned on a vision-only change. -/
def visionResult (dom : DomSnapshot) : ChangeResult :=
  { changed := true, domChanged := false, visionChanged := true,
    newDom := dom, timeout := false }

/-- The vision signal fires at poll `k`: the settle threshold has passed, a
perception value is available, and its snippet similarity to the baseline
dropped below `0.7`. -/
def visionDropAt (visionAt : Nat → Option VisionSnapshot) (snips : List String)
    (k : Nat) : Prop :=
  1000 ≤ k * 200 ∧ ∃ v, visionAt k = some v ∧
    jaccardSimilarity snips v.detectedTextSnippets < 7 / 10

section ChangeDetectorLemmas

variable (prevDom : DomSnapshot) (domAt : Nat → DomSnapshot)
  (visionAt : Nat → Option VisionSnapshot) (timeoutMs : Nat) (snips : List String)

/-- One unfolding of the polling loop, classified into its four outcomes. -/
lemma waitForChangeGo_succ_cases (n k : Nat) :
    (¬ k * 200 < timeoutMs ∧
      waitForChangeGo prevDom domAt visionAt timeoutMs snips (n + 1) k =
        timeoutResult (domAt k)) ∨
    (k * 200 < timeoutMs ∧ domDiff prevDom (domAt k) = true ∧
      waitForChangeGo prevDom domAt visionAt timeoutMs snips (n + 1) k =
        domResult (domAt k)) ∨
    (k * 200 < timeoutMs ∧ domDiff prevDom (domAt k) = false ∧
      visionDropAt visionAt snips k ∧
      waitForChangeGo prevDom domAt visionAt timeoutMs snips (n + 1) k =
        visionResult (domAt k)) ∨
    (k * 200 < timeoutMs ∧ domDiff prevDom (domAt k) = false ∧
      ¬ visionDropAt visionAt snips k ∧
      waitForChangeGo prevDom domAt visionAt timeoutMs snips (n + 1) k =
        waitForChangeGo prevDom domAt visionAt timeoutMs snips n (k + 1)) := by
  by_cases hb : k * 200 < timeoutMs
  · by_cases hd : domDiff prevDom (domAt k) = true
    · right; left
      refine ⟨hb, hd, ?_⟩
      simp [waitForChangeGo, hb, hd, domResult]
    · have hd' : domDiff prevDom (domAt k) = false := by
        cases h : domDiff prevDom (domAt k)
        · rfl
        · exact absurd h hd
      by_cases hdrop : visionDropAt visionAt snips k
      · right; right; left
        refine ⟨hb, hd', hdrop, ?_⟩
        rcases hdrop with ⟨hth, v, hv, hj⟩
        simp [waitForChangeGo, hb, hd', hth, hv, hj, visionResult]
      · right; right; right
        refine ⟨hb, hd', hdrop, ?_⟩
        by_cases hth : 1000 ≤ k * 200
        · cases hv : visionAt k with
          | some v =>
              have hj : ¬ jaccardSimilarity snips v.detectedTextSnippets < 7 / 10 :=
                fun hj => hdrop ⟨hth, v, hv, hj⟩
              simp [waitForChangeGo, hb, hd', hth, hv, hj]
          | none => simp [waitForChangeGo, hb, hd', hth, hv]
        · simp [waitForChangeGo, hb, hd', hth]
  · left
    refine ⟨hb, ?_⟩
    simp [waitForChangeGo, hb]

/-- Exactly one of the three flags is set, whatever the loop returns. -/
lemma waitForChangeGo_flags (fuel : Nat) : ∀ k,
    [(waitForChangeGo prevDom domAt visionAt timeoutMs snips fuel k).domChanged,
     (waitForChangeGo prevDom domAt visionAt timeoutMs snips fuel k).visionChanged,
     (waitForChangeGo prevDom domAt visionAt timeoutMs snips fuel k).timeout].count true = 1 := by
  induction fuel with
  | zero => intro k; rfl
  | succ n ih =>
      intro k
      rcases waitForChangeGo_succ_cases prevDom domAt visionAt timeoutMs snips n k with
        ⟨_, hgo⟩ | ⟨_, _, hgo⟩ | ⟨_, _, _, hgo⟩ | ⟨_, _, _, hgo⟩ <;> rw [hgo]
      · rfl
      · rfl
      · rfl
      · exact ih (k + 1)

/-- A `domChanged` result is returned at the first polled instant whose
snapshot differs from the baseline, and carries that snapshot. -/
lemma waitForChangeGo_dom (fuel : Nat) : ∀ k,
    (waitForChangeGo prevDom domAt visionAt timeoutMs snips fuel k).domChanged = true →
    ∃ j, k ≤ j ∧ j * 200 < timeoutMs ∧ domDiff prevDom (domAt j) = true ∧
      (waitForChangeGo prevDom domAt visionAt timeoutMs snips fuel k).newDom = domAt j ∧
      ∀ i, k ≤ i → i < j → domDiff prevDom (domAt i) = false := by
  induction fuel with
  | zero => intro k h; exact absurd h (by simp [waitForChangeGo, timeoutResult])
  | succ n ih =>
      intro k h
      rcases waitForChangeGo_succ_cases prevDom domAt visionAt timeoutMs snips n k with
        ⟨_, hgo⟩ | ⟨hb, hd, hgo⟩ | ⟨_, _, _, hgo⟩ | ⟨_, hd, _, hgo⟩
      · rw [hgo] at h
        exact absurd h (by simp [timeoutResult])
      · refine ⟨k, le_refl k, hb, hd, by rw [hgo]; rfl, ?_⟩
        intro i h1 h2
        omega
      · rw [hgo] at h
        exact absurd h (by simp [visionResult])
      · rw [hgo] at h ⊢
        rcases ih (k + 1) h with ⟨j, hj1, hj2, hj3, hj4, hj5⟩
        refine ⟨j, by omega, hj2, hj3, hj4, ?_⟩
        intro i h1 h2
        rcases Nat.eq_or_lt_of_le h1 with h1 | h1
        · exact h1 ▸ hd
        · exact hj5 i (by omega) h2

/-- A `visionChanged` result is only returned when the DOM stayed unchanged
through every poll and the snippet similarity dropped below the threshold
after the settle delay. -/
lemma waitForChangeGo_vision (fuel : Nat) : ∀ k,
    (waitForChangeGo prevDom domAt visionAt timeoutMs snips fuel k).visionChanged = true →
    ∃ j v, k ≤ j ∧ j * 200 < timeoutMs ∧ 1000 ≤ j * 200 ∧ visionAt j = some v ∧
      jaccardSimilarity snips v.detectedTextSnippets < 7 / 10 ∧
      (waitForChangeGo prevDom domAt visionAt timeoutMs snips fuel k).newDom = domAt j ∧
      ∀ i, k ≤ i → i ≤ j → domDiff prevDom (domAt i) = false := by
  induction fuel with
  | zero => intro k h; exact absurd h (by simp [waitForChangeGo, timeoutResult])
  | succ n ih =>
      intro k h
      rcases waitForChangeGo_succ_cases prevDom domAt visionAt timeoutMs snips n k with
        ⟨_, hgo⟩ | ⟨_, _, hgo⟩ | ⟨hb, hd, hdrop, hgo⟩ | ⟨_, hd, _, hgo⟩
      · rw [hgo] at h
        exact absurd h (by simp [timeoutResult])
      · rw [hgo] at h
        exact absurd h (by simp [domResult])
      · rcases hdrop with ⟨hth, v, hv, hj⟩
        refine ⟨k, v, le_refl k, hb, hth, hv, hj, by rw [hgo]; rfl, ?_⟩
        intro i h1 h2
        have : i = k := by omega
        exact this ▸ hd
      · rw [hgo] at h ⊢
        rcases ih (k + 1) h with ⟨j, v, hj1, hj2, hj3, hj4, hj5, hj6, hj7⟩
        refine ⟨j, v, by omega, hj2, hj3, hj4, hj5, hj6, ?_⟩
        intro i h1 h2
        rcases Nat.eq_or_lt_of_le h1 with h1 | h1
        · exact h1 ▸ hd
        · exact hj7 i (by omega) h2

/-- A `timeout` result means neither signal fired at any poll within the
budget, and the returned snapshot was captured after the deadline. -/
lemma waitForChangeGo_timeout (fuel : Nat) : ∀ k, timeoutMs ≤ (k + fuel) * 200 →
    (waitForChangeGo prevDom domAt visionAt timeoutMs snips fuel k).timeout = true →
    (∀ i, k ≤ i → i * 200 < timeoutMs →
      domDiff prevDom (domAt i) = false ∧ ¬ visionDropAt visionAt snips i) ∧
    ∃ m, k ≤ m ∧ ¬ m * 200 < timeoutMs ∧
      (waitForChangeGo prevDom domAt visionAt timeoutMs snips fuel k).newDom = domAt m := by
  induction fuel with
  | zero =>
      intro k hsuf _
      constructor
      · intro i h1 h2
        have : k * 200 ≤ i * 200 := Nat.mul_le_mul_right _ h1
        omega
      · exact ⟨k, le_refl k, by omega, rfl⟩
  | succ n ih =>
      intro k hsuf h
      rcases waitForChangeGo_succ_cases prevDom domAt visionAt timeoutMs snips n k with
        ⟨hb, hgo⟩ | ⟨_, _, hgo⟩ | ⟨_, _, _, hgo⟩ | ⟨_, hd, hdrop, hgo⟩
      · constructor
        · intro i h1 h2
          have : k * 200 ≤ i * 200 := Nat.mul_le_mul_right _ h1
          omega
        · exact ⟨k, le_refl k, hb, by rw [hgo]; rfl⟩
      · rw [hgo] at h
        exact absurd h (by simp [domResult])
      · rw [hgo] at h
        exact absurd h (by simp [visionResult])
      · rw [hgo] at h ⊢
        have hsuf' : timeoutMs ≤ (k + 1 + n) * 200 := by omega
        rcases ih (k + 1) hsuf' h with ⟨h1, m, hm1, hm2, hm3⟩
        constructor
        · intro i hik hib
          rcases Nat.eq_or_lt_of_le hik with hik | hik
          · exact ⟨hik ▸ hd, hik ▸ hdrop⟩
          · exact h1 i (by omega) hib
        · exact ⟨m, by omega, hm2, hm3⟩

end ChangeDetectorLemmas

/-- C5: every `waitForChange` call sets exactly one of `domChanged`,
`visionChanged`, `timeout`; `domChanged` is returned with the first polled
snapshot whose content hash, URL or alert count differs from the baseline;
`visionChanged` only after the DOM stayed unchanged at every poll and
the snippet similarity dropped below `0.7` past the settle delay; `timeout`
only when neither signal fired within the budget, and then the returned
snapshot is still a fresh capture taken after the deadline. -/
theorem waitForChange_classification (prevDom : DomSnapshot)
    (domAt : Nat → DomSnapshot) (visionAt : Nat → Option VisionSnapshot)
    (timeoutMs : Nat) :
    ([(waitForChange prevDom domAt visionAt timeoutMs).domChanged,
      (waitForChange prevDom domAt visionAt timeoutMs).visionChanged,
      (waitForChange prevDom domAt visionAt timeoutMs).timeout].count true = 1) ∧
    ((waitForChange prevDom domAt visionAt timeoutMs).domChanged = true →
      ∃ j, j * 200 < timeoutMs ∧ domDiff prevDom (domAt j) = true ∧
        (waitForChange prevDom domAt visionAt timeoutMs).newDom = domAt j ∧
        ∀ i < j, domDiff prevDom (domAt i) = false) ∧
    ((waitForChange prevDom domAt visionAt timeoutMs).visionChanged = true →
      ∃ j v, j * 200 < timeoutMs ∧ 1000 ≤ j * 200 ∧ visionAt j = some v ∧
        jaccardSimilarity (initialSnippets visionAt) v.detectedTextSnippets < 7 / 10 ∧
        (waitForChange prevDom domAt visionAt timeoutMs).newDom = domAt j ∧
        ∀ i ≤ j, domDiff prevDom (domAt i) = false) ∧
    ((waitForChange prevDom domAt visionAt timeoutMs).timeout = true →
      (∀ i, i * 200 < timeoutMs →
        domDiff prevDom (domAt i) = false ∧
        ¬ visionDropAt visionAt (initialSnippets visionAt) i) ∧
      ∃ m, ¬ m * 200 < timeoutMs ∧
        (waitForChange prevDom domAt visionAt timeoutMs).newDom = domAt m) := by
  refine ⟨?_, ?_, ?_, ?_⟩
  · exact waitForChangeGo_flags prevDom domAt visionAt timeoutMs
      (initialSnippets visionAt) (timeoutMs / 200 + 1) 0
  · intro h
    rcases waitForChangeGo_dom prevDom domAt visionAt timeoutMs
        (initialSnippets visionAt) (timeoutMs / 200 + 1) 0 h with
      ⟨j, _, hj2, hj3, hj4, hj5⟩
    exact ⟨j, hj2, hj3, hj4, fun i hi => hj5 i (Nat.zero_le i) hi⟩
  · intro h
    rcases waitForChangeGo_vision prevDom domAt visionAt timeoutMs
        (initialSnippets visionAt) (timeoutMs / 200 + 1) 0 h with
      ⟨j, v, _, hj2, hj3, hj4, hj5, hj6, hj7⟩
    exact ⟨j, v, hj2, hj3, hj4, hj5, hj6, fun i hi => hj7 i (Nat.zero_le i) hi⟩
  · intro h
    have hsuf : timeoutMs ≤ (0 + (timeoutMs / 200 + 1)) * 200 := by omega
    rcases waitForChangeGo_timeout prevDom domAt visionAt timeoutMs
        (initialSnippets visionAt) (timeoutMs / 200 + 1) 0 hsuf h with
      ⟨h1, m, _, hm2, hm3⟩
    exact ⟨fun i hi => h1 i (Nat.zero_le i) hi, m, hm2, hm3⟩

/-- Baseline snapshot for the C5 witness. -/
def wfcBase : DomSnapshot :=
  { url := "http://localhost/a", title := "A", alerts := [], pageHash := "hashA",
    targets := [] }

/-- A snapshot differing from `wfcBase` in its content hash. -/
def wfcNew : DomSnapshot :=
  { url := "http://localhost/a", title := "A", alerts := [], pageHash := "hashB",
    targets := [] }

/-- C5 witness: on a page whose first poll already differs, the
classification theorem yields the immediate `domChanged` description. -/
theorem waitForChange_classification_witness :
    ∃ j, j * 200 < 5000 ∧ domDiff wfcBase ((fun _ => wfcNew) j) = true ∧
      (waitForChange wfcBase (fun _ => wfcNew) (fun _ => none) 5000).newDom =
        (fun _ => wfcNew) j ∧
      ∀ i < j, domDiff wfcBase ((fun _ => wfcNew) i) = false :=
  (waitForChange_classification wfcBase (fun _ => wfcNew) (fun _ => none) 5000).2.1
    (by decide)

/-! ## C9 — snapshot target invariants -/

/-- Invariant of the extraction loop: emitted identifiers are pairwise
distinct and all recorded in `seen`. -/
def ExtractInv (st : ExtractState) : Prop :=
  (st.out.map Target.id).Nodup ∧ ∀ t ∈ st.out, t.id ∈ st.seen

lemma extractStepCore_inv {st : ExtractState} (h : ExtractInv st) (el : RawElement) :
    ExtractInv (extractStepCore st el) := by
  unfold extractStepCore
  split
  · exact h
  · dsimp only
    split
    · exact h
    · next hseen =>
        refine ⟨?_, ?_⟩
        · have hid : (processEl el st.index).id ∉ st.out.map Target.id := by
            intro hmem
            rcases List.mem_map.mp hmem with ⟨t', ht', hid⟩
            have hc : (processEl el st.index).id ∈ st.seen := hid ▸ h.2 t' ht'
            exact hseen (List.elem_iff.mpr hc)
          simp only [List.map_append, List.map_cons, List.map_nil]
          rw [List.nodup_append]
          exact ⟨h.1, List.nodup_singleton _, by
            intro a ha hb
            simp only [List.mem_singleton] at hb
            exact hid (hb ▸ ha)⟩
        · intro t ht
          rcases List.mem_append.mp ht with ht | ht
          · exact List.mem_cons_of_mem _ (h.2 t ht)
          · simp only [List.mem_singleton] at ht
            subst ht
            exact List.mem_cons_self _ _

lemma extractStepCap_inv {st : ExtractState} (h : ExtractInv st) (el : RawElement) :
    ExtractInv (extractStepCap st el) := by
  unfold extractStepCap
  split
  · exact h
  · exact extractStepCore_inv h el

lemma foldl_cap_inv : ∀ (els : List RawElement) (st : ExtractState), ExtractInv st →
    ExtractInv (els.foldl extractStepCap st)
  | [], _, h => h
  | el :: els, _, h => foldl_cap_inv els _ (extractStepCap_inv h el)

lemma extractStepCore_len {st : ExtractState} (h : st.index = st.out.length)
    (el : RawElement) :
    (extractStepCore st el).index = (extractStepCore st el).out.length := by
  unfold extractStepCore
  split
  · exact h
  · dsimp only
    split
    · exact h
    · simp [h]

lemma extractStepCore_index_le (st : ExtractState) (el : RawElement) :
    (extractStepCore st el).index ≤ st.index + 1 := by
  unfold extractStepCore
  split
  · omega
  · dsimp only
    split
    · omega
    · simp

lemma extractStepCore_out_one (st : ExtractState) (el : RawElement) :
    ∃ l, (extractStepCore st el).out = st.out ++ l := by
  unfold extractStepCore
  split
  · exact ⟨[], by simp⟩
  · dsimp only
    split
    · exact ⟨[], by simp⟩
    · exact ⟨[processEl el st.index], rfl⟩

lemma foldl_core_out_extend : ∀ (els : List RawElement) (st : ExtractState),
    ∃ l, (els.foldl extractStepCore st).out = st.out ++ l
  | [], st => ⟨[], by simp⟩
  | el :: els, st => by
      rcases extractStepCore_out_one st el with ⟨l₁, h₁⟩
      rcases foldl_core_out_extend els (extractStepCore st el) with ⟨l₂, h₂⟩
      exact ⟨l₁ ++ l₂, by simp [h₂, h₁]⟩

lemma foldl_cap_stuck : ∀ (els : List RawElement) (st : ExtractState),
    40 ≤ st.index → els.foldl extractStepCap st = st
  | [], _, _ => rfl
  | el :: els, st, h => by
      have : extractStepCap st el = st := by unfold extractStepCap; rw [if_pos h]
      rw [List.foldl_cons, this]
      exact foldl_cap_stuck els st h

/-- The capped extraction is exactly the first 40 targets of the uncapped
extraction: truncation always drops elements beyond the cap and never
reorders. -/
lemma foldl_cap_out_take : ∀ (els : List RawElement) (st : ExtractState),
    st.index = st.out.length → st.index ≤ 40 →
    (els.foldl extractStepCap st).out = ((els.foldl extractStepCore st).out).take 40
  | [], st, hlen, h40 => by
      simp [List.take_of_length_le, ← hlen, h40]
  | el :: els, st, hlen, h40 => by
      by_cases hx : 40 ≤ st.index
      · have hst : extractStepCap st el = st := by unfold extractStepCap; rw [if_pos hx]
        have hout : st.out.length = 40 := by omega
        rw [List.foldl_cons, hst, foldl_cap_stuck els st hx]
        rcases extractStepCore_out_one st el with ⟨l₁, h₁⟩
        rcases foldl_core_out_extend els (extractStepCore st el) with ⟨l₂, h₂⟩
        rw [List.foldl_cons, h₂, h₁, List.append_assoc, ← hout, List.take_left]
      · have hst : extractStepCap st el = extractStepCore st el := by
          unfold extractStepCap; rw [if_neg hx]
        have hlen' := extractStepCore_len hlen el
        have hle := extractStepCore_index_le st el
        rw [List.foldl_cons, List.foldl_cons, hst]
        exact foldl_cap_out_take els (extractStepCore st el) hlen' (by omega)

/-- C9: every snapshot produced by `captureDomSnapshot` lists at most 40
targets, their identifiers are pairwise distinct (the `seen` set resolves
any collision by keeping the first occurrence), and the list is exactly the
first 40 targets the uncapped document-order extraction would produce —
truncation is stable and never reorders; moreover extending the document
with further elements only ever appends to the uncapped extraction. -/
theorem snapshot_targets_invariants (pg : PageModel) :
    (captureDomSnapshot pg).targets.length ≤ 40 ∧
    ((captureDomSnapshot pg).targets.map Target.id).Nodup ∧
    (captureDomSnapshot pg).targets = (runExtractNoCap pg.elements).take 40 ∧
    ∀ more, ∃ extra,
      runExtractNoCap (pg.elements ++ more) = runExtractNoCap pg.elements ++ extra := by
  have hcap : runExtract pg.elements = (runExtractNoCap pg.elements).take 40 :=
    foldl_cap_out_take pg.elements { out := [], seen := [], index := 0 } rfl (by decide)
  have htargets : (captureDomSnapshot pg).targets = (runExtractNoCap pg.elements).take 40 := by
    show (runExtract pg.elements).take 40 = (runExtractNoCap pg.elements).take 40
    rw [hcap, List.take_take]
    simp
  refine ⟨?_, ?_, htargets, ?_⟩
  · rw [htargets]
    exact List.length_take_le _ _
  · have hinv : ExtractInv (pg.elements.foldl extractStepCap { out := [], seen := [], index := 0 }) :=
      foldl_cap_inv pg.elements _ ⟨List.nodup_nil, by intro t ht; cases ht⟩
    have hnodup : ((runExtract pg.elements).map Target.id).Nodup := hinv.1
    rw [htargets, ← hcap]
    exact hnodup
  · intro more
    rcases foldl_core_out_extend more
        (pg.elements.foldl extractStepCore { out := [], seen := [], index := 0 }) with ⟨l, hl⟩
    refine ⟨l, ?_⟩
    show ((pg.elements ++ more).foldl extractStepCore _).out = _
    rw [List.foldl_append]
    exact hl

/-- C7 counterexample: with the allowlist entry written `EXAMPLE.com`, the
code accepts hostname `example.com` (it lower-cases the entry too), while
the claimed rule — lower-cased hostname equals the entry as written, or ends
with `'.'` plus the entry as written — rejects it. -/
theorem allowlist_entry_case_counterexample :
    isAllowedDomain "http://example.com/" ["EXAMPLE.com"] = true ∧
    claimAllowedDomain "http://example.com/" ["EXAMPLE.com"] = false := by
  refine ⟨by decide, by decide⟩

/-! ## Loop lemmas (C2, C6, C7) -/

lemma withEvents_nil (o : StepOutcome) : o.withEvents [] = o := by
  cases o <;> rfl

lemma withEvents_comp (p₁ p₂ : List RunEvent) (o : StepOutcome) :
    (o.withEvents p₁).withEvents p₂ = o.withEvents (p₂ ++ p₁) := by
  cases o <;> simp [StepOutcome.withEvents]

lemma withEvents_events (pre : List RunEvent) (o : StepOutcome) :
    (o.withEvents pre).events = pre ++ o.events := by
  cases o <;> rfl

/-- A step execution ending in a successful browser operation records a
success entry and applies the stuck-counter update rule. -/
lemma runStepExec_success_next (st : AgentState) (env : StepEnv) (step : Nat)
    (action : Action) (op : BrowserOp)
    (hb : executeBranch action env.dom = ExecBranch.browserOp op)
    (hs : env.execSucceeds = true) :
    runStepExec st env step action = StepOutcome.next
      { st with
        history := st.history ++
          [{ step := step, action := action, result := StepResult.success, error := none }],
        stuckCounter := stuckUpdate st.stuckCounter env.change,
        lastDomHash := match env.change with
          | ChangeKind.domChangedK h => h
          | _ => st.lastDomHash }
      [RunEvent.executed step op, RunEvent.actionLogged step action StepResult.success] := by
  unfold runStepExec
  rw [hb]
  dsimp only
  rw [if_pos hs]
  cases env.change <;> rfl

/-- The risky-intent gate passes the step on to execution (with the prompt
event prepended when it fired) whenever a flagged action is approved. -/
lemma runStepRisky_exec (st : AgentState) (env : StepEnv) (step : Nat)
    (action : Action)
    (h7 : isRiskyIntent action = true → env.riskyApproved = true) :
    ∃ pre, runStepRisky st env step action =
      (runStepExec st env step action).withEvents pre := by
  unfold runStepRisky
  by_cases hr : isRiskyIntent action = true
  · rw [if_pos hr, if_pos (h7 hr)]
    exact ⟨[RunEvent.riskyPrompt step], rfl⟩
  · rw [if_neg hr]
    exact ⟨[], (withEvents_nil _).symm⟩

/-- The planning stage hands a non-stop, non-ask action whose gates pass on
to execution, with some prompt events prepended. -/
lemma runStepPlan_exec (allowlist : List String) (st : AgentState) (env : StepEnv)
    (step : Nat) (action : Action)
    (ha : planNextAction env.oracle env.dom st.history = action)
    (h4 : action.type ≠ ActionType.stop) (h5 : action.type ≠ ActionType.ask_user)
    (h6 : action.type = ActionType.navigate ∧ optTruthy action.url = true ∧
      ¬ isAllowedDomain (optStr action.url) allowlist = true → env.navApproved = true)
    (h7 : isRiskyIntent action = true → env.riskyApproved = true) :
    ∃ pre, runStepPlan allowlist st env step =
      (runStepExec st env step action).withEvents pre := by
  unfold runStepPlan
  rw [ha]
  rw [if_neg h4, if_neg h5]
  by_cases hnav : action.type = ActionType.navigate ∧ optTruthy action.url = true ∧
      ¬ isAllowedDomain (optStr action.url) allowlist = true
  · rw [if_pos hnav, if_pos (h6 hnav)]
    rcases runStepRisky_exec st env step action h7 with ⟨pre, hpre⟩
    rw [hpre, withEvents_comp]
    exact ⟨[RunEvent.navPrompt step (optStr action.url)] ++ pre, rfl⟩
  · rw [if_neg hnav]
    exact runStepRisky_exec st env step action h7

/-! ### No step emits a final summary, and only a throw crashes a step -/

lemma runStepExec_no_summary (st : AgentState) (env : StepEnv) (step : Nat)
    (action : Action) :
    ∀ e ∈ (runStepExec st env step action).events, isFinalSummaryEvent e = false := by
  intro e he
  unfold runStepExec at he
  rcases hb : executeBranch action env.dom with msg | op | _ <;>
    rw [hb] at he <;> dsimp only at he
  · simp only [StepOutcome.events, List.mem_singleton] at he
    subst he; rfl
  · by_cases hs : env.execSucceeds = true
    · rw [if_pos hs] at he
      cases hc : env.change <;> rw [hc] at he <;>
        simp only [StepOutcome.events, List.cons_append, List.nil_append,
          List.mem_cons, List.mem_singleton, List.not_mem_nil, or_false] at he <;>
        rcases he with rfl | rfl <;> rfl
    · rw [if_neg hs] at he
      simp only [StepOutcome.events, List.mem_cons, List.mem_singleton,
        List.not_mem_nil, or_false] at he
      rcases he with rfl | rfl <;> rfl
  · cases hc : env.change <;> rw [hc] at he <;>
      simp only [StepOutcome.events, List.nil_append, List.mem_singleton] at he <;>
      subst he <;> rfl

lemma runStepRisky_no_summary (st : AgentState) (env : StepEnv) (step : Nat)
    (action : Action) :
    ∀ e ∈ (runStepRisky st env step action).events, isFinalSummaryEvent e = false := by
  intro e he
  unfold runStepRisky at he
  by_cases hr : isRiskyIntent action = true
  · rw [if_pos hr] at he
    by_cases happ : env.riskyApproved = true
    · rw [if_pos happ] at he
      rw [withEvents_events] at he
      rcases List.mem_append.mp he with he | he
      · simp only [List.mem_singleton] at he; subst he; rfl
      · exact runStepExec_no_summary st env step action e he
    · rw [if_neg happ] at he
      simp only [StepOutcome.events, List.mem_singleton] at he
      subst he; rfl
  · rw [if_neg hr] at he
    exact runStepExec_no_summary st env step action e he

lemma runStepPlan_no_summary (allowlist : List String) (st : AgentState)
    (env : StepEnv) (step : Nat) :
    ∀ e ∈ (runStepPlan allowlist st env step).events, isFinalSummaryEvent e = false := by
  intro e he
  unfold runStepPlan at he
  set action := planNextAction env.oracle env.dom st.history with haction
  by_cases h4 : action.type = ActionType.stop
  · rw [if_pos h4] at he
    simp only [StepOutcome.events, List.mem_singleton] at he
    subst he; rfl
  · rw [if_neg h4] at he
    by_cases h5 : action.type = ActionType.ask_user
    · rw [if_pos h5] at he
      by_cases happ : env.askUserApproved = true <;>
        [rw [if_pos happ] at he; rw [if_neg happ] at he] <;>
        simp only [StepOutcome.events, List.mem_cons, List.mem_singleton,
          List.not_mem_nil, or_false] at he <;>
        rcases he with he | he <;> subst he <;> rfl
    · rw [if_neg h5] at he
      by_cases hnav : action.type = ActionType.navigate ∧ optTruthy action.url = true ∧
          ¬ isAllowedDomain (optStr action.url) allowlist = true
      · rw [if_pos hnav] at he
        by_cases happ : env.navApproved = true
        · rw [if_pos happ] at he
          rw [withEvents_events] at he
          rcases List.mem_append.mp he with he | he
          · simp only [List.mem_singleton] at he; subst he; rfl
          · exact runStepRisky_no_summary st env step action e he
        · rw [if_neg happ] at he
          simp only [StepOutcome.events, List.mem_singleton] at he
          subst he; rfl
      · rw [if_neg hnav] at he
        exact runStepRisky_no_summary st env step action e he

lemma runStep_no_summary (allowlist : List String) (st : AgentState) (env : StepEnv) :
    ∀ e ∈ (runStep allowlist st env).events, isFinalSummaryEvent e = false := by
  intro e he
  unfold runStep at he
  by_cases h1 : env.stepThrows = true
  · rw [if_pos h1] at he
    simp [StepOutcome.events] at he
  · rw [if_neg h1] at he
    by_cases h2 : env.hasCaptcha = true
    · rw [if_pos h2] at he
      simp [StepOutcome.events] at he
    · rw [if_neg h2] at he
      dsimp only at he
      by_cases h3 : 3 ≤ st.stuckCounter
      · rw [if_pos h3] at he
        by_cases hcont : env.stuckContinue = true
        · rw [if_pos hcont] at he
          rw [withEvents_events] at he
          rcases List.mem_append.mp he with he | he
          · simp only [List.mem_singleton] at he; subst he; rfl
          · exact runStepPlan_no_summary allowlist _ env _ e he
        · rw [if_neg hcont] at he
          simp only [StepOutcome.events, List.mem_singleton] at he
          subst he; rfl
      · rw [if_neg h3] at he
        exact runStepPlan_no_summary allowlist _ env _ e he

/-- Which outcomes are crashes. -/
def StepOutcome.isCrash : StepOutcome → Bool
  | StepOutcome.crash _ => true
  | _ => false

lemma withEvents_isCrash (pre : List RunEvent) (o : StepOutcome) :
    (o.withEvents pre).isCrash = o.isCrash := by
  cases o <;> rfl

lemma runStepExec_not_crash (st : AgentState) (env : StepEnv) (step : Nat)
    (action : Action) : (runStepExec st env step action).isCrash = false := by
  unfold runStepExec
  rcases hb : executeBranch action env.dom with msg | op | _ <;> dsimp only
  · rfl
  · by_cases hs : env.execSucceeds = true
    · rw [if_pos hs]; cases env.change <;> rfl
    · rw [if_neg hs]; rfl
  · cases env.change <;> rfl

lemma runStepRisky_not_crash (st : AgentState) (env : StepEnv) (step : Nat)
    (action : Action) : (runStepRisky st env step action).isCrash = false := by
  unfold runStepRisky
  by_cases hr : isRiskyIntent action = true
  · rw [if_pos hr]
    by_cases happ : env.riskyApproved = true
    · rw [if_pos happ, withEvents_isCrash]
      exact runStepExec_not_crash st env step action
    · rw [if_neg happ]; rfl
  · rw [if_neg hr]
    exact runStepExec_not_crash st env step action

lemma runStepPlan_not_crash (allowlist : List String) (st : AgentState)
    (env : StepEnv) (step : Nat) :
    (runStepPlan allowlist st env step).isCrash = false := by
  unfold runStepPlan
  set action := planNextAction env.oracle env.dom st.history with haction
  by_cases h4 : action.type = ActionType.stop
  · rw [if_pos h4]; rfl
  · rw [if_neg h4]
    by_cases h5 : action.type = ActionType.ask_user
    · rw [if_pos h5]
      by_cases happ : env.askUserApproved = true
      · rw [if_pos happ]; rfl
      · rw [if_neg happ]; rfl
    · rw [if_neg h5]
      by_cases hnav : action.type = ActionType.navigate ∧ optTruthy action.url = true ∧
          ¬ isAllowedDomain (optStr action.url) allowlist = true
      · rw [if_pos hnav]
        by_cases happ : env.navApproved = true
        · rw [if_pos happ, withEvents_isCrash]
          exact runStepRisky_not_crash st env step action
        · rw [if_neg happ]; rfl
      · rw [if_neg hnav]
        exact runStepRisky_not_crash st env step action

lemma runStep_not_crash (allowlist : List String) (st : AgentState) (env : StepEnv)
    (h1 : env.stepThrows = false) :
    (runStep allowlist st env).isCrash = false := by
  unfold runStep
  rw [if_neg (by rw [h1]; exact Bool.false_ne_true)]
  by_cases h2 : env.hasCaptcha = true
  · rw [if_pos h2]; rfl
  · rw [if_neg h2]
    dsimp only
    by_cases h3 : 3 ≤ st.stuckCounter
    · rw [if_pos h3]
      by_cases hcont : env.stuckContinue = true
      · rw [if_pos hcont, withEvents_isCrash]
        exact runStepPlan_not_crash allowlist _ env _
      · rw [if_neg hcont]; rfl
    · rw [if_neg h3]
      exact runStepPlan_not_crash allowlist _ env _

/-! ### The loop emits no summary itself and crashes only on a throw -/

lemma runLoop_no_summary (allowlist : List String) (envs : Nat → StepEnv) :
    ∀ (fuel : Nat) (st : AgentState),
      ∀ e ∈ (runLoop allowlist envs fuel st).events, isFinalSummaryEvent e = false := by
  intro fuel
  induction fuel with
  | zero => intro st e he; simp [runLoop] at he
  | succ n ih =>
      intro st e he
      rw [runLoop] at he
      by_cases hrun : st.running ∧ st.currentStep < st.maxSteps
      · rw [if_pos hrun] at he
        cases hout : runStep allowlist st (envs st.currentStep) with
        | crash evs =>
            rw [hout] at he
            dsimp only at he
            exact runStep_no_summary allowlist st (envs st.currentStep) e
              (by rw [hout]; exact he)
        | exit st' evs =>
            rw [hout] at he
            dsimp only at he
            exact runStep_no_summary allowlist st (envs st.currentStep) e
              (by rw [hout]; exact he)
        | next st' evs =>
            rw [hout] at he
            dsimp only at he
            rcases List.mem_append.mp he with he | he
            · exact runStep_no_summary allowlist st (envs st.currentStep) e
                (by rw [hout]; exact he)
            · exact ih st' e he
      · rw [if_neg hrun] at he
        simp at he

lemma runLoop_no_crash (allowlist : List String) (envs : Nat → StepEnv)
    (h : ∀ k, (envs k).stepThrows = false) :
    ∀ (fuel : Nat) (st : AgentState), (runLoop allowlist envs fuel st).crashed = false := by
  intro fuel
  induction fuel with
  | zero => intro st; rfl
  | succ n ih =>
      intro st
      rw [runLoop]
      by_cases hrun : st.running ∧ st.currentStep < st.maxSteps
      · rw [if_pos hrun]
        cases hout : runStep allowlist st (envs st.currentStep) with
        | crash evs =>
            have hnc := runStep_not_crash allowlist st (envs st.currentStep) (h st.currentStep)
            rw [hout] at hnc
            exact absurd hnc (by simp [StepOutcome.isCrash])
        | exit st' evs => rfl
        | next st' evs => exact ih st'
      · rw [if_neg hrun]

/-! ## C2 — final summary emission -/

/-- An environment whose step throws (any `await` of the step rejecting —
e.g. the snapshot capture failing mid-navigation). -/
def crashEnv : StepEnv :=
  { stepThrows := true, dom := emptyDom, vision := none, hasCaptcha := false,
    stuckContinue := true, oracle := Except.error PlanError.procError,
    askUserApproved := true, navApproved := true, riskyApproved := true,
    execSucceeds := true, execError := none, change := ChangeKind.timeoutK }

/-- C2 counterexample: a run whose first step throws terminates (the outer
`catch` logs the error) without emitting any final summary record — the
`writeFinalSummary` call sits inside the `try` block, not in `finally`. -/
theorem crash_skips_summary :
    (runAgent ["localhost"] (fun _ => crashEnv) "goal" 3 "http://localhost/").crashed = true ∧
    (runAgent ["localhost"] (fun _ => crashEnv) "goal" 3
        "http://localhost/").events.countP isFinalSummaryEvent = 0 := by
  refine ⟨rfl, rfl⟩

/-- C2 (amended): on every run in which no step throws an exception —
covering termination by planner stop, ask-user decline, stuck-abort and
budget exhaustion — exactly one final summary record is emitted; a step that
throws ends the run without one. -/
theorem final_summary_exactly_once (allowlist : List String) (envs : Nat → StepEnv)
    (goal : String) (maxSteps : Nat) (finalUrl : String)
    (h : ∀ k, (envs k).stepThrows = false) :
    (runAgent allowlist envs goal maxSteps finalUrl).events.countP isFinalSummaryEvent = 1 ∧
    (runAgent allowlist envs goal maxSteps finalUrl).crashed = false := by
  have hc := runLoop_no_crash allowlist envs h maxSteps (initialState goal maxSteps)
  have hs := runLoop_no_summary allowlist envs maxSteps (initialState goal maxSteps)
  unfold runAgent
  dsimp only
  rw [if_neg (by rw [hc]; exact Bool.false_ne_true)]
  constructor
  · rw [List.countP_append]
    have hzero : (runLoop allowlist envs maxSteps (initialState goal maxSteps)).events.countP
        isFinalSummaryEvent = 0 := by
      rw [List.countP_eq_zero]
      intro e he
      rw [hs e he]
      exact Bool.false_ne_true
    rw [hzero]
    rfl
  · exact hc

/-- A step environment whose oracle immediately returns a stop action. -/
def stopEnv : StepEnv :=
  { stepThrows := false, dom := emptyDom, vision := none, hasCaptcha := false,
    stuckContinue := true,
    oracle := Except.ok
      { type := ActionType.stop, targetId := none, text := none, key := none,
        url := none, timeoutMs := 5000, risk := Risk.low,
        expect := some "Goal completed", done := true },
    askUserApproved := true, navApproved := true, riskyApproved := true,
    execSucceeds := true, execError := none, change := ChangeKind.timeoutK }

/-- C2 witness: a concrete non-throwing run emits exactly one summary. -/
theorem final_summary_exactly_once_witness :
    (runAgent ["localhost"] (fun _ => stopEnv) "demo goal" 2
        "http://localhost/").events.countP isFinalSummaryEvent = 1 :=
  (final_summary_exactly_once ["localhost"] (fun _ => stopEnv) "demo goal" 2
    "http://localhost/" (fun _ => rfl)).1

/-! ## C6 — stuck-counter lifecycle -/

/-- C6: (1) a step that is not suspended (no throw, no CAPTCHA), passes its
gates and executes its browser operation successfully updates the stuck
counter exactly by `stuckUpdate`: reset to zero on a DOM change, unchanged
on a vision-only change, incremented on a timeout; (2) a step starting with
the counter at the threshold prompts, and an abort ends the run at once;
(3) a continue answer resets the counter to zero — the step proceeds exactly
as it would from a zero counter, with the prompt recorded first. -/
theorem stuck_counter_lifecycle :
    (∀ (allowlist : List String) (st : AgentState) (env : StepEnv)
        (action : Action) (op : BrowserOp),
      env.stepThrows = false → env.hasCaptcha = false → st.stuckCounter < 3 →
      planNextAction env.oracle env.dom st.history = action →
      action.type ≠ ActionType.stop → action.type ≠ ActionType.ask_user →
      (action.type = ActionType.navigate ∧ optTruthy action.url = true ∧
        ¬ isAllowedDomain (optStr action.url) allowlist = true →
        env.navApproved = true) →
      (isRiskyIntent action = true → env.riskyApproved = true) →
      executeBranch action env.dom = ExecBranch.browserOp op →
      env.execSucceeds = true →
      ∃ evs, runStep allowlist st env = StepOutcome.next
        { st with
          currentStep := st.currentStep + 1,
          history := st.history ++
            [{ step := st.currentStep + 1, action := action,
               result := StepResult.success, error := none }],
          stuckCounter := stuckUpdate st.stuckCounter env.change,
          lastDomHash := match env.change with
            | ChangeKind.domChangedK h => h
            | _ => st.lastDomHash } evs) ∧
    (∀ (allowlist : List String) (st : AgentState) (env : StepEnv),
      env.stepThrows = false → env.hasCaptcha = false → 3 ≤ st.stuckCounter →
      env.stuckContinue = false →
      runStep allowlist st env =
        StepOutcome.exit { st with currentStep := st.currentStep + 1 }
          [RunEvent.stuckPrompt (st.currentStep + 1)]) ∧
    (∀ (allowlist : List String) (st : AgentState) (env : StepEnv),
      env.stepThrows = false → env.hasCaptcha = false → 3 ≤ st.stuckCounter →
      env.stuckContinue = true →
      runStep allowlist st env =
        (runStep allowlist { st with stuckCounter := 0 } env).withEvents
          [RunEvent.stuckPrompt (st.currentStep + 1)]) := by
  refine ⟨?_, ?_, ?_⟩
  · intro allowlist st env action op h1 h2 h3 ha h4 h5 h6 h7 hb h9
    unfold runStep
    dsimp only
    rw [if_neg (by rw [h1]; exact Bool.false_ne_true)]
    rw [if_neg (by rw [h2]; exact Bool.false_ne_true)]
    rw [if_neg (by omega : ¬ 3 ≤ st.stuckCounter)]
    rcases runStepPlan_exec allowlist { st with currentStep := st.currentStep + 1 } env
        (st.currentStep + 1) action ha h4 h5 h6 h7 with ⟨pre, hpre⟩
    rw [hpre, runStepExec_success_next { st with currentStep := st.currentStep + 1 } env
      (st.currentStep + 1) action op hb h9]
    exact ⟨pre ++ [RunEvent.executed (st.currentStep + 1) op,
      RunEvent.actionLogged (st.currentStep + 1) action StepResult.success], rfl⟩
  · intro allowlist st env h1 h2 h3 hcont
    unfold runStep
    dsimp only
    rw [if_neg (by rw [h1]; exact Bool.false_ne_true)]
    rw [if_neg (by rw [h2]; exact Bool.false_ne_true)]
    rw [if_pos h3]
    rw [if_neg (by rw [hcont]; exact Bool.false_ne_true)]
  · intro allowlist st env h1 h2 h3 hcont
    unfold runStep
    dsimp only
    rw [if_neg (by rw [h1]; exact Bool.false_ne_true)]
    rw [if_neg (by rw [h2]; exact Bool.false_ne_true)]
    rw [if_pos h3, if_pos hcont]
    rw [if_neg (by decide : ¬ (3 : Nat) ≤ 0)]
    rw [if_neg (by rw [h1]; exact Bool.false_ne_true)]
    rw [if_neg (by rw [h2]; exact Bool.false_ne_true)]

/-- A state whose stuck counter has reached the threshold. -/
def stuckState : AgentState :=
  { goal := "g", currentStep := 4, maxSteps := 10, history := [],
    stuckCounter := 3, lastDomHash := "h", running := true }

/-- An environment in which the user aborts at the stuck prompt. -/
def abortEnv : StepEnv :=
  { stepThrows := false, dom := emptyDom, vision := none, hasCaptcha := false,
    stuckContinue := false, oracle := Except.error PlanError.procError,
    askUserApproved := true, navApproved := true, riskyApproved := true,
    execSucceeds := true, execError := none, change := ChangeKind.timeoutK }

/-- C6 witness: at counter 3 an abort answer ends the run with just the
prompt recorded. -/
theorem stuck_counter_lifecycle_witness :
    runStep ["localhost"] stuckState abortEnv =
      StepOutcome.exit { stuckState with currentStep := 5 }
        [RunEvent.stuckPrompt 5] :=
  stuck_counter_lifecycle.2.1 ["localhost"] stuckState abortEnv rfl rfl
    (by decide) rfl

/-! ## C7 (amended) — allowlist matching and navigation gating -/

/-- C7 (amended): `isAllowedDomain` accepts exactly the URLs whose parsed
lower-cased hostname equals a *lower-cased* allowlist entry or ends with
`'.'` followed by one (matching is case-insensitive on the entry as well as
the hostname); and every planned navigate action whose destination fails the
check prompts for approval before anything executes — a decline records the
step as failed with the action never executed. -/
theorem allowlist_matching_amended :
    (∀ (url : String) (allowlist : List String),
      isAllowedDomain url allowlist = true ↔
        ∃ host, parseUrlHostname url = some host ∧ ∃ entry ∈ allowlist,
          (lowerChars host.data = lowerChars entry.data ∨
            charsEndWith ('.' :: lowerChars entry.data) (lowerChars host.data) = true)) ∧
    (∀ (allowlist : List String) (st : AgentState) (env : StepEnv) (action : Action),
      env.stepThrows = false → env.hasCaptcha = false → st.stuckCounter < 3 →
      planNextAction env.oracle env.dom st.history = action →
      action.type = ActionType.navigate → optTruthy action.url = true →
      isAllowedDomain (optStr action.url) allowlist = false →
      (∃ rest, (runStep allowlist st env).events =
        RunEvent.navPrompt (st.currentStep + 1) (optStr action.url) :: rest) ∧
      (env.navApproved = false →
        runStep allowlist st env = StepOutcome.next
          { st with
            currentStep := st.currentStep + 1,
            history := st.history ++
              [{ step := st.currentStep + 1, action := action,
                 result := StepResult.failed,
                 error := some "User blocked navigation" }] }
          [RunEvent.navPrompt (st.currentStep + 1) (optStr action.url)])) := by
  constructor
  · intro url allowlist
    unfold isAllowedDomain
    cases hp : parseUrlHostname url with
    | none => simp [hp]
    | some host =>
        dsimp only
        rw [List.any_eq_true]
        constructor
        · rintro ⟨entry, hentry, hcond⟩
          refine ⟨host, rfl, entry, hentry, ?_⟩
          rw [Bool.or_eq_true] at hcond
          rcases hcond with h | h
          · exact Or.inl (eq_of_beq h)
          · exact Or.inr h
        · rintro ⟨host', hh, entry, hentry, hcond⟩
          have hh' : host' = host := by
            injection hh with hh
            exact hh.symm
          subst hh'
          refine ⟨entry, hentry, ?_⟩
          rw [Bool.or_eq_true]
          rcases hcond with h | h
          · exact Or.inl (by simp [h])
          · exact Or.inr h
  · intro allowlist st env action h1 h2 h3 ha hnavt hurl hdom
    have hcond : action.type = ActionType.navigate ∧ optTruthy action.url = true ∧
        ¬ isAllowedDomain (optStr action.url) allowlist = true :=
      ⟨hnavt, hurl, by rw [hdom]; exact Bool.false_ne_true⟩
    have hstep : runStep allowlist st env =
        if env.navApproved = true then
          (runStepRisky { st with currentStep := st.currentStep + 1 } env
            (st.currentStep + 1) action).withEvents
              [RunEvent.navPrompt (st.currentStep + 1) (optStr action.url)]
        else
          StepOutcome.next
            { st with
              currentStep := st.currentStep + 1,
              history := st.history ++
                [{ step := st.currentStep + 1, action := action,
                   result := StepResult.failed,
                   error := some "User blocked navigation" }] }
            [RunEvent.navPrompt (st.currentStep + 1) (optStr action.url)] := by
      unfold runStep runStepPlan
      dsimp only
      rw [if_neg (by rw [h1]; exact Bool.false_ne_true)]
      rw [if_neg (by rw [h2]; exact Bool.false_ne_true)]
      rw [if_neg (by omega : ¬ 3 ≤ st.stuckCounter)]
      rw [ha]
      rw [if_neg (by simp [hnavt]), if_neg (by simp [hnavt]), if_pos hcond]
    constructor
    · by_cases happ : env.navApproved = true
      · rw [hstep, if_pos happ, withEvents_events]
        exact ⟨_, rfl⟩
      · rw [hstep, if_neg happ]
        exact ⟨[], rfl⟩
    · intro hfalse
      rw [hstep, if_neg (by rw [hfalse]; exact Bool.false_ne_true)]

/-- A planner response navigating outside the allowlist. -/
def navOutAction : Action :=
  { type := ActionType.navigate, targetId := none, text := none, key := none,
    url := some "http://evil.example/", timeoutMs := 5000, risk := Risk.low,
    expect := none, done := false }

/-- An environment in which the user declines the navigation prompt. -/
def navDenyEnv : StepEnv :=
  { stepThrows := false, dom := emptyDom, vision := none, hasCaptcha := false,
    stuckContinue := true, oracle := Except.ok navOutAction,
    askUserApproved := true, navApproved := false, riskyApproved := true,
    execSucceeds := true, execError := none, change := ChangeKind.timeoutK }

/-- C7 witness: a declined out-of-allowlist navigation is recorded as a
failed step with only the prompt emitted. -/
theorem allowlist_matching_amended_witness :
    runStep ["localhost"] (initialState "g" 5) navDenyEnv =
      StepOutcome.next
        { initialState "g" 5 with
          currentStep := 1,
          history := [{ step := 1, action := navOutAction,
                        result := StepResult.failed,
                        error := some "User blocked navigation" }] }
        [RunEvent.navPrompt 1 "http://evil.example/"] :=
  (allowlist_matching_amended.2 ["localhost"] (initialState "g" 5) navDenyEnv
    navOutAction rfl rfl (by decide) (by decide) rfl rfl (by decide)).2 rfl

/-! ## C3 — stop semantics and the summary success flag -/

/-- The one-input fixture page target. -/
def emailTarget : Target :=
  { id := "input:Email:0", role := "input", label := "Email",
    locatorType := "css",
    locatorValue := { role := none, label := none, css := some { selector := "#email" } } }

/-- Fixture snapshot: a form with one unfilled text input. -/
def formDom : DomSnapshot :=
  { url := "http://localhost/form", title := "Form", alerts := [],
    pageHash := "h1", targets := [emailTarget] }

/-- Environment for the heuristic-planner scenario: the oracle fails every
step, execution succeeds, the DOM changes after the fill. -/
def heuristicEnv : StepEnv :=
  { stepThrows := false, dom := formDom, vision := none, hasCaptcha := false,
    stuckContinue := true, oracle := Except.error PlanError.procError,
    askUserApproved := true, navApproved := true, riskyApproved := true,
    execSucceeds := true, execError := none, change := ChangeKind.domChangedK "h2" }

/-- The heuristic-planner end-to-end run on the one-input form. -/
def scenarioRun : LoopResult :=
  runAgent ["localhost"] (fun _ => heuristicEnv) "fill the form" 40
    "http://localhost/form"

/-- C3 (code bug): in the heuristic-planner scenario the step-2 planner
output is `stop` with `done = true` and the run does end at step 2, but the
final summary's success flag is `false`: the summary computes success as
`history.some(h => h.action.done)` and the stop action is never appended to
the history, so its completion flag is lost. -/
theorem stop_done_not_reflected_in_summary :
    (planNextAction (Except.error PlanError.procError) formDom
      scenarioRun.state.history).type = ActionType.stop ∧
    (planNextAction (Except.error PlanError.procError) formDom
      scenarioRun.state.history).done = true ∧
    scenarioRun.state.currentStep = 2 ∧
    scenarioRun.crashed = false ∧
    scenarioRun.events.countP isFinalSummaryEvent = 1 ∧
    RunEvent.finalSummary "fill the form" scenarioRun.state.history
      "http://localhost/form" false ∈ scenarioRun.events := by
  refine ⟨by decide, by decide, by decide, rfl, by decide, by decide⟩

end Overshoot
